import Mathlib

/-!
Verification of the SEG-Y Batch Inspector & Fixer core against its
natural-language specification.

The definitions below are a shallow embedding of the Python sources under
`segy_toolbox/`: the safe expression evaluator (`core/expression.py`), the
EBCDIC/ASCII textual-header codec (`io/ebcdic.py`), the binary/trace header
field maps (`io/reader.py`), the validator (`core/validator.py`), the trace
header editor (`core/trace_editor.py`) and the batch engine
(`core/engine.py`).

Modelling conventions:
* Python numbers (int/float) are modelled by `Rat`; float rounding error is
  outside the model (the spec's properties are about exact values).
* Python exceptions are modelled by `Except`; the `ExpressionError` raise
  sites of `expression.py` become the constructors of `EvalError`, one per
  distinct raise site / message family.
* Expressions are embedded at the AST level (the output of `ast.parse`,
  which is external to the repository); the Python surface-syntax parser is
  not modelled.
* Display-string formatting (thousands separators, float precision) is
  elided in messages; statuses, names and control flow are kept faithful.
-/

namespace SegyToolbox

/-! ## Safe expression evaluator (`core/expression.py`) -/

/-- Binary operator kinds accepted by `_BINARY_OPS` (`ast.Add` etc.); the
`unsupported` constructor stands for any other `ast` binary operator (e.g.
`ast.BitAnd`), for which `_BINARY_OPS.get` returns `None`. -/
inductive BinOpKind
  | add | sub | mul | div | floorDiv | mod | pow
  | unsupported (tyName : String)
deriving DecidableEq, Repr

/-- Unary operator kinds accepted by `_UNARY_OPS` (`ast.UAdd`, `ast.USub`). -/
inductive UnaryOpKind
  | pos | neg
  | unsupported (tyName : String)
deriving DecidableEq, Repr

/-- Comparison operator kinds accepted by `_COMPARE_OPS`. -/
inductive CmpOpKind
  | gt | lt | ge | le | eq | ne
  | unsupported (tyName : String)
deriving DecidableEq, Repr

/-- Boolean operator kinds (`ast.And` / `ast.Or`); the Python grammar admits
no others inside `ast.BoolOp`, so `_BOOL_OPS.get` never misses. -/
inductive BoolOpKind
  | and_ | or_
deriving DecidableEq, Repr

/-- A Python constant as it appears in `ast.Constant.value`.  `_eval_node`
accepts `int`/`float` (which includes `bool`, a subclass of `int`) and
rejects everything else with "Unsupported constant type". -/
inductive PyConst
  | num (q : Rat)
  | bool (b : Bool)
  | str (s : String)
  | other (tyName : String)
deriving DecidableEq, Repr

/-- The expression AST produced by `ast.parse(expression, mode="eval")`,
restricted to the node shapes `_eval_node` distinguishes.  `call`'s function
position carries `some id` when `node.func` is an `ast.Name` and `none`
otherwise (in which case `getattr(node.func, "id", "<unknown>")` yields
`"<unknown>"`).  `unsupportedNode` stands for every other `ast` node kind
(`ast.Subscript`, `ast.Attribute`, ...), which falls through to the final
"Unsupported expression node" raise. -/
inductive Expr
  | const (c : PyConst)
  | name (id : String)
  | binop (op : BinOpKind) (l r : Expr)
  | unaryop (op : UnaryOpKind) (e : Expr)
  | compare (l : Expr) (chain : List (CmpOpKind × Expr))
  | boolop (op : BoolOpKind) (values : List Expr)
  | call (fn : Option String) (args : List Expr)
  | unsupportedNode (tyName : String)

/-- A Python value produced by the evaluator: a number or a `bool`
(comparisons and `and`/`or` yield `bool`s via `all`/`any`). -/
inductive Val
  | num (q : Rat)
  | bool (b : Bool)
deriving DecidableEq, Repr

/-- Numeric coercion used implicitly by Python arithmetic/comparison
(`True == 1`, `False == 0`). -/
def Val.toRat : Val → Rat
  | .num q => q
  | .bool b => if b then 1 else 0

/-- Python truthiness of an evaluator value (`bool(x)`). -/
def Val.truthy : Val → Bool
  | .num q => decide (q ≠ 0)
  | .bool b => b

/-- The errors of `expression.py`, one constructor per raise site:
`syntaxError` is the parse-failure raise in `evaluate`; `divisionByZero` is
the `ZeroDivisionError` handler around binary operators; the `unsupported*`
and `unknownVariable` constructors are the remaining `ExpressionError`
raises of `_eval_node`; `uncaughtException` models a non-`ExpressionError`
Python exception escaping the evaluator (e.g. a `TypeError` from a bad
call arity), which `_eval_node` does not catch. -/
inductive EvalError
  | syntaxError (msg : String)
  | unsupportedConstant (tyName : String)
  | unknownVariable (name : String)
  | unsupportedOperator (tyName : String)
  | divisionByZero
  | unsupportedUnaryOperator (tyName : String)
  | unsupportedComparison (tyName : String)
  | unsupportedFunction (name : String)
  | unsupportedNodeError (tyName : String)
  | uncaughtException (msg : String)
deriving DecidableEq, Repr

deriving instance DecidableEq for Except

/-- The variable environment `SafeEvaluator.variables` (a `dict[str, int |
float]`, modelled as an association list; duplicate keys do not arise). -/
abbrev Env := List (String × Rat)

/-- Python `math.floor`-style floored division used by `//` and the sign
convention of `%`. -/
def pyFloorDiv (a b : Rat) : Rat := (Rat.floor (a / b) : Int)

/-- Python `%`: `a - b * (a // b)` (result has the divisor's sign). -/
def pyMod (a b : Rat) : Rat := a - b * pyFloorDiv a b

/-- Python `int(q)`: truncation toward zero. -/
def pyTrunc (q : Rat) : Int := if 0 ≤ q then Rat.floor q else -Rat.floor (-q)

/-- Python `round(q)`: nearest integer, ties to even (banker's rounding). -/
def pyRound (q : Rat) : Int :=
  let f := Rat.floor q
  let frac := q - (f : Rat)
  if frac < 1/2 then f
  else if 1/2 < frac then f + 1
  else if f % 2 = 0 then f else f + 1

/-- Python `a ** b` for rational operands.  Integer exponents are exact
(`0 ** negative` raises `ZeroDivisionError`, which the evaluator converts to
its division-by-zero error); a non-integer exponent yields an irrational
float in Python, which is outside the rational model and is marked with the
`uncaughtException` boundary marker (no claim exercises this case). -/
def pyPow (a b : Rat) : Except EvalError Rat :=
  if b.den = 1 then
    if 0 ≤ b.num then .ok (a ^ b.num.toNat)
    else if a = 0 then .error .divisionByZero
    else .ok ((a ^ (-b.num).toNat)⁻¹)
  else .error (.uncaughtException "non-integer exponent outside rational model")

/-- Semantics of one entry of `_BINARY_OPS`, after both operands evaluated:
`op_fn(left, right)` with the surrounding `except ZeroDivisionError`
handler.  `unsupported` is the `op_fn is None` raise (checked, as in the
source, only after both operands were evaluated). -/
def applyBinOp : BinOpKind → Val → Val → Except EvalError Val
  | .add, a, b => .ok (.num (a.toRat + b.toRat))
  | .sub, a, b => .ok (.num (a.toRat - b.toRat))
  | .mul, a, b => .ok (.num (a.toRat * b.toRat))
  | .div, a, b =>
      if b.toRat = 0 then .error .divisionByZero
      else .ok (.num (a.toRat / b.toRat))
  | .floorDiv, a, b =>
      if b.toRat = 0 then .error .divisionByZero
      else .ok (.num (pyFloorDiv a.toRat b.toRat))
  | .mod, a, b =>
      if b.toRat = 0 then .error .divisionByZero
      else .ok (.num (pyMod a.toRat b.toRat))
  | .pow, a, b => (pyPow a.toRat b.toRat).map Val.num
  | .unsupported ty, _, _ => .error (.unsupportedOperator ty)

/-- Semantics of one entry of `_UNARY_OPS`. -/
def applyUnaryOp : UnaryOpKind → Val → Except EvalError Val
  | .pos, v => .ok (.num v.toRat)
  | .neg, v => .ok (.num (-v.toRat))
  | .unsupported ty, _ => .error (.unsupportedUnaryOperator ty)

/-- Semantics of one entry of `_COMPARE_OPS` (numeric comparison under
Python's bool-as-int coercion); `none` when the operator is not in the
table. -/
def cmpFn : CmpOpKind → Option (Rat → Rat → Bool)
  | .gt => some fun a b => decide (b < a)
  | .lt => some fun a b => decide (a < b)
  | .ge => some fun a b => decide (b ≤ a)
  | .le => some fun a b => decide (a ≤ b)
  | .eq => some fun a b => decide (a = b)
  | .ne => some fun a b => decide (a ≠ b)
  | .unsupported _ => none

/-- The names in `_SAFE_FUNCS`. -/
def safeFuncNames : List String := ["abs", "int", "round", "min", "max", "float"]

/-- Return the first argument attaining the minimum `toRat` value, as
Python's `min` returns the first minimal argument. -/
def pyMinList (v : Val) (vs : List Val) : Val :=
  vs.foldl (fun acc w => if w.toRat < acc.toRat then w else acc) v

/-- Return the first argument attaining the maximum `toRat` value. -/
def pyMaxList (v : Val) (vs : List Val) : Val :=
  vs.foldl (fun acc w => if acc.toRat < w.toRat then w else acc) v

/-- `_SAFE_FUNCS[name](*args)`: the builtin applied to the evaluated
arguments.  Arity errors raise `TypeError`/`ValueError`, which escape the
evaluator uncaught (modelled by `uncaughtException`). -/
def applySafeFunc : String → List Val → Except EvalError Val
  | "abs", [v] => .ok (.num |v.toRat|)
  | "int", [] => .ok (.num 0)
  | "int", [v] => .ok (.num (pyTrunc v.toRat))
  | "round", [v] => .ok (.num (pyRound v.toRat))
  | "min", v :: vs =>
      if vs = [] then .error (.uncaughtException "min expected at least 2 arguments")
      else .ok (pyMinList v vs)
  | "max", v :: vs =>
      if vs = [] then .error (.uncaughtException "max expected at least 2 arguments")
      else .ok (pyMaxList v vs)
  | "float", [] => .ok (.num 0)
  | "float", [v] => .ok (.num v.toRat)
  | name, _ => .error (.uncaughtException (name ++ ": bad argument list"))

mutual

/-- `SafeEvaluator._eval_node`, case by case in source order. -/
def evalNode (env : Env) : Expr → Except EvalError Val
  | .const (.num q) => .ok (.num q)
  | .const (.bool b) => .ok (.bool b)
  | .const (.str _) => .error (.unsupportedConstant "str")
  | .const (.other ty) => .error (.unsupportedConstant ty)
  | .name id =>
      match env.lookup id with
      | some q => .ok (.num q)
      | none => .error (.unknownVariable id)
  | .binop op l r => do
      let lv ← evalNode env l
      let rv ← evalNode env r
      applyBinOp op lv rv
  | .unaryop op e => do
      let v ← evalNode env e
      applyUnaryOp op v
  | .compare l chain => do
      let lv ← evalNode env l
      evalChain env lv chain
  | .boolop op values => do
      let vs ← evalList env values
      match op with
      | .and_ => .ok (.bool (vs.all Val.truthy))
      | .or_ => .ok (.bool (vs.any Val.truthy))
  | .call fn args =>
      match fn with
      | some id =>
          if id ∈ safeFuncNames then do
            let vs ← evalList env args
            applySafeFunc id vs
          else .error (.unsupportedFunction id)
      | none => .error (.unsupportedFunction "<unknown>")
  | .unsupportedNode ty => .error (.unsupportedNodeError ty)

/-- The comparison loop of `_eval_node`'s `ast.Compare` case: each
comparator is evaluated, then the link is checked; a failing link returns
`False` without evaluating the remaining comparators. -/
def evalChain (env : Env) (left : Val) : List (CmpOpKind × Expr) → Except EvalError Val
  | [] => .ok (.bool true)
  | (op, c) :: rest => do
      let right ← evalNode env c
      match cmpFn op with
      | none => .error (.unsupportedComparison "unsupported")
      | some f =>
          if f left.toRat right.toRat then evalChain env right rest
          else .ok (.bool false)

/-- The list comprehension `[self._eval_node(v) for v in node.values]` (and
the analogous one for call arguments): operands are evaluated left to
right and the first error propagates. -/
def evalList (env : Env) : List Expr → Except EvalError (List Val)
  | [] => .ok []
  | e :: es => do
      let v ← evalNode env e
      let vs ← evalList env es
      .ok (v :: vs)

end

/-- `SafeEvaluator.evaluate` at the AST level (the surface-string parse is
external; a string that fails to parse raises `syntaxError` before
`_eval_node` runs). -/
def evaluate (env : Env) (e : Expr) : Except EvalError Val := evalNode env e

/-- `SafeEvaluator.evaluate_condition`: `bool(self.evaluate(condition))`. -/
def evaluateCondition (env : Env) (e : Expr) : Except EvalError Bool :=
  (evaluate env e).map Val.truthy

mutual

/-- `validate_expression` (AST level): walk every node, flag a `Name` whose
id is neither an available variable nor a safe function, and a `Call` whose
`Name` func is not a safe function.  `ast.walk` visits in BFS order; the
model walks in DFS preorder (a node before its children), which returns an
error if and only if the source does — only which of several error messages
is reported can differ.  Children of a non-`Name` call func are not
represented in the AST model (see `Expr.call`). -/
def validateWalk (vars : List String) : Expr → Option String
  | .const _ => none
  | .name id =>
      if id ∈ vars ∨ id ∈ safeFuncNames then none
      else some ("Unknown variable: " ++ id)
  | .binop _ l r => (validateWalk vars l).orElse fun _ => validateWalk vars r
  | .unaryop _ e => validateWalk vars e
  | .compare l chain =>
      (validateWalk vars l).orElse fun _ => validateWalkChain vars chain
  | .boolop _ vs => validateWalkList vars vs
  | .call fn args =>
      (match fn with
        | some id =>
            if id ∈ safeFuncNames then none
            else some ("Unsupported function: " ++ id)
        | none => none).orElse fun _ => validateWalkList vars args
  | .unsupportedNode _ => none

/-- Walk of a list of sibling subexpressions, first error wins. -/
def validateWalkList (vars : List String) : List Expr → Option String
  | [] => none
  | e :: es => (validateWalk vars e).orElse fun _ => validateWalkList vars es

/-- Walk of the comparator list of an `ast.Compare` node. -/
def validateWalkChain (vars : List String) : List (CmpOpKind × Expr) → Option String
  | [] => none
  | (_, c) :: rest =>
      (validateWalk vars c).orElse fun _ => validateWalkChain vars rest

end

/-! ### Claims C2, C8, C9 -/

/-- C2 counterexample: the claim says `A or B` with truthy `A` returns true
without evaluating `B`, so a division by zero in `B` does not surface.  In
the code `_eval_node` evaluates every `BoolOp` operand before applying
`any`, so `1 or 1/0` raises the division-by-zero error instead of
returning true. -/
theorem c2_or_short_circuit_counterexample :
    evalNode [] (.const (.num 1)) = .ok (.num 1)
    ∧ (Val.num 1).truthy = true
    ∧ evalNode []
        (.boolop .or_ [.const (.num 1),
          .binop .div (.const (.num 1)) (.const (.num 0))])
        = .error .divisionByZero := by
  refine ⟨rfl, rfl, rfl⟩

/-- C2 (amended): `and`/`or` evaluate all operands eagerly, left to right;
when every operand evaluates, `or` returns true iff some operand is truthy
and `and` returns true iff all are (Python `any`/`all`); an error in a
later operand propagates even when an earlier operand already determines
the result. -/
theorem c2_boolop_eager_semantics (env : Env) (es : List Expr) (vs : List Val)
    (A B : Expr) (v : Val) (e : EvalError)
    (hes : evalList env es = .ok vs)
    (hA : evalNode env A = .ok v)
    (hB : evalNode env B = .error e) :
    evalNode env (.boolop .or_ es) = .ok (.bool (vs.any Val.truthy))
    ∧ evalNode env (.boolop .and_ es) = .ok (.bool (vs.all Val.truthy))
    ∧ evalNode env (.boolop .or_ [A, B]) = .error e
    ∧ evalNode env (.boolop .and_ [A, B]) = .error e := by
  refine ⟨?_, ?_, ?_, ?_⟩ <;>
    simp [evalNode, evalList, hes, hA, hB, bind, Except.bind]

/-- C2 amended-claim witness at a concrete instance. -/
theorem c2_boolop_eager_semantics_witness :
    evalNode [] (.boolop .or_ [.const (.num 1)]) = .ok (.bool ([Val.num 1].any Val.truthy))
    ∧ evalNode [] (.boolop .and_ [.const (.num 1)]) = .ok (.bool ([Val.num 1].all Val.truthy))
    ∧ evalNode [] (.boolop .or_ [.const (.num 1),
        .binop .div (.const (.num 1)) (.const (.num 0))]) = .error .divisionByZero
    ∧ evalNode [] (.boolop .and_ [.const (.num 1),
        .binop .div (.const (.num 1)) (.const (.num 0))]) = .error .divisionByZero :=
  c2_boolop_eager_semantics [] [.const (.num 1)] [.num 1] (.const (.num 1))
    (.binop .div (.const (.num 1)) (.const (.num 0))) (.num 1) .divisionByZero
    rfl rfl rfl

/-- C8: a `/`, `//` or `%` whose divisor evaluates to zero yields the
dedicated division-by-zero error (`except ZeroDivisionError: raise
ExpressionError("Division by zero")`), and that error is distinct from the
generic evaluation-failure errors raised for syntax errors, unknown
variables and unsupported constants, operators, functions and nodes. -/
theorem c8_division_by_zero_dedicated (env : Env) (a b : Expr) (op : BinOpKind)
    (va vb : Val)
    (hop : op = .div ∨ op = .floorDiv ∨ op = .mod)
    (ha : evalNode env a = .ok va)
    (hb : evalNode env b = .ok vb)
    (hz : vb.toRat = 0) :
    evalNode env (.binop op a b) = .error .divisionByZero
    ∧ (∀ s, EvalError.divisionByZero ≠ .syntaxError s)
    ∧ (∀ s, EvalError.divisionByZero ≠ .unknownVariable s)
    ∧ (∀ s, EvalError.divisionByZero ≠ .unsupportedConstant s)
    ∧ (∀ s, EvalError.divisionByZero ≠ .unsupportedOperator s)
    ∧ (∀ s, EvalError.divisionByZero ≠ .unsupportedUnaryOperator s)
    ∧ (∀ s, EvalError.divisionByZero ≠ .unsupportedComparison s)
    ∧ (∀ s, EvalError.divisionByZero ≠ .unsupportedFunction s)
    ∧ (∀ s, EvalError.divisionByZero ≠ .unsupportedNodeError s) := by
  refine ⟨?_, ?_, ?_, ?_, ?_, ?_, ?_, ?_, ?_⟩
  · rcases hop with h | h | h <;> subst h <;>
      simp [evalNode, ha, hb, applyBinOp, hz, bind, Except.bind]
  all_goals intro s h ; exact EvalError.noConfusion h

/-- C8 witness: `1 / 0` at a concrete input. -/
theorem c8_division_by_zero_dedicated_witness :
    evalNode [] (.binop .div (.const (.num 1)) (.const (.num 0)))
        = .error .divisionByZero
    ∧ (∀ s, EvalError.divisionByZero ≠ .syntaxError s)
    ∧ (∀ s, EvalError.divisionByZero ≠ .unknownVariable s)
    ∧ (∀ s, EvalError.divisionByZero ≠ .unsupportedConstant s)
    ∧ (∀ s, EvalError.divisionByZero ≠ .unsupportedOperator s)
    ∧ (∀ s, EvalError.divisionByZero ≠ .unsupportedUnaryOperator s)
    ∧ (∀ s, EvalError.divisionByZero ≠ .unsupportedComparison s)
    ∧ (∀ s, EvalError.divisionByZero ≠ .unsupportedFunction s)
    ∧ (∀ s, EvalError.divisionByZero ≠ .unsupportedNodeError s) :=
  c8_division_by_zero_dedicated [] (.const (.num 1)) (.const (.num 0)) .div
    (.num 1) (.num 0) (Or.inl rfl) rfl rfl rfl

/-! ## EBCDIC / ASCII textual-header codec (`io/ebcdic.py`) -/

/-- `LINES = 40`. -/
def LINES : Nat := 40

/-- `COLS = 80`. -/
def COLS : Nat := 80

/-- `HEADER_SIZE = LINES * COLS` (3200 bytes). -/
def HEADER_SIZE : Nat := LINES * COLS

/-- The byte-to-codepoint decoding table of Python's `cp500` codec
(`EBCDIC_CODEC = "cp500"`), entry `b` giving the Unicode codepoint of byte
`b`. -/
def cp500DecodeTable : List Nat := [
  0x00, 0x01, 0x02, 0x03, 0x9C, 0x09, 0x86, 0x7F, 0x97, 0x8D, 0x8E, 0x0B, 0x0C, 0x0D, 0x0E, 0x0F,
  0x10, 0x11, 0x12, 0x13, 0x9D, 0x85, 0x08, 0x87, 0x18, 0x19, 0x92, 0x8F, 0x1C, 0x1D, 0x1E, 0x1F,
  0x80, 0x81, 0x82, 0x83, 0x84, 0x0A, 0x17, 0x1B, 0x88, 0x89, 0x8A, 0x8B, 0x8C, 0x05, 0x06, 0x07,
  0x90, 0x91, 0x16, 0x93, 0x94, 0x95, 0x96, 0x04, 0x98, 0x99, 0x9A, 0x9B, 0x14, 0x15, 0x9E, 0x1A,
  0x20, 0xA0, 0xE2, 0xE4, 0xE0, 0xE1, 0xE3, 0xE5, 0xE7, 0xF1, 0x5B, 0x2E, 0x3C, 0x28, 0x2B, 0x21,
  0x26, 0xE9, 0xEA, 0xEB, 0xE8, 0xED, 0xEE, 0xEF, 0xEC, 0xDF, 0x5D, 0x24, 0x2A, 0x29, 0x3B, 0x5E,
  0x2D, 0x2F, 0xC2, 0xC4, 0xC0, 0xC1, 0xC3, 0xC5, 0xC7, 0xD1, 0xA6, 0x2C, 0x25, 0x5F, 0x3E, 0x3F,
  0xF8, 0xC9, 0xCA, 0xCB, 0xC8, 0xCD, 0xCE, 0xCF, 0xCC, 0x60, 0x3A, 0x23, 0x40, 0x27, 0x3D, 0x22,
  0xD8, 0x61, 0x62, 0x63, 0x64, 0x65, 0x66, 0x67, 0x68, 0x69, 0xAB, 0xBB, 0xF0, 0xFD, 0xFE, 0xB1,
  0xB0, 0x6A, 0x6B, 0x6C, 0x6D, 0x6E, 0x6F, 0x70, 0x71, 0x72, 0xAA, 0xBA, 0xE6, 0xB8, 0xC6, 0xA4,
  0xB5, 0x7E, 0x73, 0x74, 0x75, 0x76, 0x77, 0x78, 0x79, 0x7A, 0xA1, 0xBF, 0xD0, 0xDD, 0xDE, 0xAE,
  0xA2, 0xA3, 0xA5, 0xB7, 0xA9, 0xA7, 0xB6, 0xBC, 0xBD, 0xBE, 0xAC, 0x7C, 0xAF, 0xA8, 0xB4, 0xD7,
  0x7B, 0x41, 0x42, 0x43, 0x44, 0x45, 0x46, 0x47, 0x48, 0x49, 0xAD, 0xF4, 0xF6, 0xF2, 0xF3, 0xF5,
  0x7D, 0x4A, 0x4B, 0x4C, 0x4D, 0x4E, 0x4F, 0x50, 0x51, 0x52, 0xB9, 0xFB, 0xFC, 0xF9, 0xFA, 0xFF,
  0x5C, 0xF7, 0x53, 0x54, 0x55, 0x56, 0x57, 0x58, 0x59, 0x5A, 0xB2, 0xD4, 0xD6, 0xD2, 0xD3, 0xD5,
  0x30, 0x31, 0x32, 0x33, 0x34, 0x35, 0x36, 0x37, 0x38, 0x39, 0xB3, 0xDB, 0xDC, 0xD9, 0xDA, 0x9F]

/-- Decode one byte under cp500 (every byte 0-255 decodes; the default is
unreachable for in-range bytes). -/
def cp500DecodeChar (b : Nat) : Nat := cp500DecodeTable.getD b 0xFFFD

/-- Encode one codepoint under cp500 with `errors="replace"`: the byte
whose decoding is `c`, else the byte for `?` (0x6F). -/
def cp500EncodeChar (c : Nat) : Nat :=
  (cp500DecodeTable.findIdx? (· == c)).getD 0x6F

/-- Decode one byte as `ascii` with `errors="replace"` (bytes ≥ 0x80 become
U+FFFD). -/
def asciiDecodeChar (b : Nat) : Nat := if b ≤ 0x7F then b else 0xFFFD

/-- Encode one codepoint as `ascii` with `errors="replace"` (codepoints ≥
0x80 become `?`). -/
def asciiEncodeChar (c : Nat) : Nat := if c ≤ 0x7F then c else 0x3F

/-- Per-character encoder selected by `EBCDIC_CODEC if encoding == "EBCDIC"
else "ascii"`. -/
def encodeChar (encoding : String) : Nat → Nat :=
  if encoding = "EBCDIC" then cp500EncodeChar else asciiEncodeChar

/-- Per-character decoder for the same codec choice. -/
def decodeChar (encoding : String) : Nat → Nat :=
  if encoding = "EBCDIC" then cp500DecodeChar else asciiDecodeChar

/-- `line[:COLS].ljust(COLS)`: truncate to 80 characters and pad with
spaces. -/
def padLine (line : List Nat) : List Nat :=
  line.take COLS ++ List.replicate (COLS - (line.take COLS).length) 0x20

/-- `encode_textual_header(lines, encoding)`: pad/truncate up to 40 lines,
append blank lines to 40, join and encode. -/
def encode_textual_header (lines : List (List Nat)) (encoding : String) : List Nat :=
  let padded := (lines.take LINES).map padLine
  let padded := padded ++ List.replicate (LINES - padded.length) (List.replicate COLS 0x20)
  padded.flatten.map (encodeChar encoding)

/-- `detect_encoding(raw)`: printable-range counting heuristic; EBCDIC wins
only on a strictly greater count. -/
def detect_encoding (raw : List Nat) : String :=
  if raw.length < HEADER_SIZE then "ASCII"
  else
    let sample := raw.take HEADER_SIZE
    let ebcdicPrintable := sample.countP fun b => decide (0x40 ≤ b) && decide (b ≤ 0xFE)
    let asciiPrintable := sample.countP fun b => decide (0x20 ≤ b) && decide (b ≤ 0x7E)
    if asciiPrintable < ebcdicPrintable then "EBCDIC" else "ASCII"

/-- `decode_textual_header(raw)`: auto-detect the encoding, decode the
first 3200 bytes and slice into 40 lines of 80 characters. -/
def decode_textual_header (raw : List Nat) : List (List Nat) :=
  let encoding := detect_encoding raw
  let text := (raw.take HEADER_SIZE).map (decodeChar encoding)
  (List.range LINES).map fun i => (text.drop (i * COLS)).take COLS

/-- A codepoint is in the charset of the chosen codec when encoding then
decoding it is lossless: membership in the cp500 table for EBCDIC, the
7-bit range for ASCII. -/
def inCharset (encoding : String) (c : Nat) : Prop :=
  if encoding = "EBCDIC" then c ∈ cp500DecodeTable else c ≤ 0x7F

/-- Helper: a member of a list is recovered by `getD` at its `findIdx?`
position. -/
theorem getD_findIdx_of_mem {l : List Nat} {c : Nat} (h : c ∈ l) :
    ∃ j, l.findIdx? (· == c) = some j ∧ l.getD j 0xFFFD = c := by
  induction l with
  | nil => cases h
  | cons a t ih =>
      by_cases hac : a = c
      · exact ⟨0, by simp [List.findIdx?_cons, hac], by simp [hac]⟩
      · have hmem : c ∈ t := by
          rcases List.mem_cons.mp h with h1 | h1
          · exact absurd h1.symm hac
          · exact h1
        obtain ⟨j, hj, hg⟩ := ih hmem
        refine ⟨j + 1, ?_, ?_⟩
        · simp [List.findIdx?_cons, hac, hj]
        · simpa using hg

/-- cp500 decoding inverts cp500 encoding on the charset. -/
theorem cp500_decode_encode {c : Nat} (h : c ∈ cp500DecodeTable) :
    cp500DecodeChar (cp500EncodeChar c) = c := by
  obtain ⟨j, hj, hg⟩ := getD_findIdx_of_mem h
  rw [List.getD_eq_getElem?_getD] at hg
  simp [cp500EncodeChar, cp500DecodeChar, hj, hg, List.getD_eq_getElem?_getD]

/-- ASCII decoding inverts ASCII encoding on 7-bit codepoints. -/
theorem ascii_decode_encode {c : Nat} (h : c ≤ 0x7F) :
    asciiDecodeChar (asciiEncodeChar c) = c := by
  simp [asciiDecodeChar, asciiEncodeChar, h]

/-- Helper: slicing the concatenation of `n` lines of 80 characters at
offsets `0, 80, 160, ...` recovers the lines. -/
theorem chunk_flatten (ls : List (List Nat)) (h : ∀ l ∈ ls, l.length = COLS) :
    (List.range ls.length).map (fun i => (ls.flatten.drop (i * COLS)).take COLS) = ls := by
  induction ls with
  | nil => rfl
  | cons l t ih =>
      have hl : l.length = COLS := h l (by simp)
      have ht : ∀ m ∈ t, m.length = COLS := fun m hm => h m (by simp [hm])
      have hhead : ((l :: t).flatten.drop (0 * COLS)).take COLS = l := by
        simpa [List.flatten_cons] using @List.take_left' Nat l t.flatten COLS hl
      have step : ∀ i, ((l :: t).flatten.drop ((i + 1) * COLS)).take COLS
          = (t.flatten.drop (i * COLS)).take COLS := by
        intro i
        have harith : (i + 1) * COLS = l.length + i * COLS := by
          rw [hl]; ring
        rw [List.flatten_cons, harith, ← List.drop_drop, List.drop_left]
      have htail : (List.range t.length).map
          ((fun i => ((l :: t).flatten.drop (i * COLS)).take COLS) ∘ Nat.succ) = t := by
        calc (List.range t.length).map
              ((fun i => ((l :: t).flatten.drop (i * COLS)).take COLS) ∘ Nat.succ)
            = (List.range t.length).map (fun i => (t.flatten.drop (i * COLS)).take COLS) := by
              refine List.map_congr_left fun i _ => ?_
              simpa using step i
          _ = t := ih ht
      simp only [List.length_cons, List.range_succ_eq_map, List.map_cons, List.map_map]
      rw [hhead, htail]

/-- Helper: the length of the concatenation of 40 lines of 80 characters. -/
theorem flatten_length_header (ls : List (List Nat)) (hlen : ls.length = LINES)
    (h : ∀ l ∈ ls, l.length = COLS) : ls.flatten.length = HEADER_SIZE := by
  have : ls.map List.length = List.replicate LINES COLS := by
    refine List.eq_replicate_iff.mpr ⟨by simpa using hlen, ?_⟩
    intro b hb
    obtain ⟨l, hl, rfl⟩ := List.mem_map.mp hb
    exact h l hl
  simp [List.length_flatten, this, List.sum_replicate, HEADER_SIZE]

/-- Helper: encoding a full 40-line, 80-column array is the character-wise
encoding of its concatenation (padding is a no-op). -/
theorem encode_full (lines : List (List Nat)) (encoding : String)
    (hlen : lines.length = LINES) (hline : ∀ l ∈ lines, l.length = COLS) :
    encode_textual_header lines encoding = lines.flatten.map (encodeChar encoding) := by
  have htake : lines.take LINES = lines := by
    rw [← hlen]; exact List.take_length lines
  have hpad : lines.map padLine = lines := by
    have : ∀ l ∈ lines, padLine l = l := by
      intro l hl
      have h80 : l.length = COLS := hline l hl
      have : l.take COLS = l := by rw [← h80]; exact List.take_length l
      simp [padLine, this, h80]
    calc lines.map padLine = lines.map id := List.map_congr_left this
      _ = lines := List.map_id lines
  simp [encode_textual_header, htake, hpad, hlen]

/-- C4 (amended): for a 40 by 80 array of in-charset lines, decoding
inverts encoding provided `detect_encoding` identifies the encoding the
bytes were produced with; the all-spaces counterexample shows the unguarded
round-trip fails because an EBCDIC header of ambiguous printability is
detected (and decoded) as ASCII. -/
theorem c4_roundtrip_when_detected (lines : List (List Nat)) (encoding : String)
    (hlen : lines.length = LINES)
    (hline : ∀ l ∈ lines, l.length = COLS)
    (henc : encoding = "EBCDIC" ∨ encoding = "ASCII")
    (hcs : ∀ l ∈ lines, ∀ c ∈ l, inCharset encoding c)
    (hdet : detect_encoding (encode_textual_header lines encoding) = encoding) :
    decode_textual_header (encode_textual_header lines encoding) = lines := by
  have hence := encode_full lines encoding hlen hline
  have hflat : ∀ c ∈ lines.flatten, decodeChar encoding (encodeChar encoding c) = c := by
    intro c hc
    obtain ⟨l, hl, hcl⟩ := List.mem_flatten.mp hc
    have hin := hcs l hl c hcl
    rcases henc with h | h <;> subst h
    · rw [inCharset, if_pos rfl] at hin
      simpa [decodeChar, encodeChar] using cp500_decode_encode hin
    · rw [inCharset, if_neg (by decide)] at hin
      simpa [decodeChar, encodeChar, if_neg] using ascii_decode_encode hin
  have hlenflat : (encode_textual_header lines encoding).length = HEADER_SIZE := by
    rw [hence, List.length_map]
    exact flatten_length_header lines hlen hline
  have htext : ((encode_textual_header lines encoding).take HEADER_SIZE).map
      (decodeChar encoding) = lines.flatten := by
    rw [← hlenflat, List.take_length, hence, List.map_map]
    calc lines.flatten.map (decodeChar encoding ∘ encodeChar encoding)
        = lines.flatten.map id := List.map_congr_left fun c hc => hflat c hc
      _ = lines.flatten := List.map_id _
  simp only [decode_textual_header]
  rw [hdet, htext, ← hlen]
  exact chunk_flatten lines hline

/-- Helper: encoding a uniform 40 by 80 array gives 3200 copies of the
encoded character. -/
theorem encode_uniform (c : Nat) (encoding : String) :
    encode_textual_header (List.replicate LINES (List.replicate COLS c)) encoding
      = List.replicate HEADER_SIZE (encodeChar encoding c) := by
  have hpad : padLine (List.replicate COLS c) = List.replicate COLS c := by
    simp [padLine, List.take_replicate]
  simp [encode_textual_header, List.take_replicate, List.map_replicate, hpad,
    List.flatten_replicate_replicate, HEADER_SIZE]

/-- The all-spaces textual header (codepoint 0x20 everywhere). -/
def allSpaces : List (List Nat) := List.replicate LINES (List.replicate COLS 0x20)

/-- C4 counterexample: the all-spaces header is a 40 by 80 in-charset line
array, yet encoding it as EBCDIC (3200 bytes 0x40) and decoding does not
return it: 0x40 is printable under both heuristic ranges, so
`detect_encoding` ties toward ASCII and every space decodes as an `@`. -/
theorem c4_roundtrip_counterexample :
    allSpaces.length = LINES
    ∧ (∀ l ∈ allSpaces, l.length = COLS)
    ∧ (∀ l ∈ allSpaces, ∀ c ∈ l, inCharset "EBCDIC" c)
    ∧ decode_textual_header (encode_textual_header allSpaces "EBCDIC") ≠ allSpaces := by
  refine ⟨by simp [allSpaces], ?_, ?_, ?_⟩
  · intro l hl
    rw [List.eq_of_mem_replicate hl]
    simp
  · intro l hl c hc
    rw [List.eq_of_mem_replicate hl] at hc
    rw [List.eq_of_mem_replicate hc, inCharset, if_pos rfl]
    decide
  · have hence : encode_textual_header allSpaces "EBCDIC"
        = List.replicate HEADER_SIZE 0x40 := by
      have : encodeChar "EBCDIC" 0x20 = 0x40 := by decide
      simpa [this] using encode_uniform 0x20 "EBCDIC"
    have hdet : detect_encoding (List.replicate HEADER_SIZE 0x40) = "ASCII" := by
      simp [detect_encoding, List.take_replicate, List.countP_replicate, HEADER_SIZE]
    have hdec : decode_textual_header (encode_textual_header allSpaces "EBCDIC")
        = (List.range LINES).map fun i =>
            ((List.replicate HEADER_SIZE (0x40 : Nat)).drop (i * COLS)).take COLS := by
      rw [hence]
      unfold decode_textual_header
      rw [hdet]
      simp [List.take_replicate, decodeChar, asciiDecodeChar, HEADER_SIZE]
    have hrows : decode_textual_header (encode_textual_header allSpaces "EBCDIC")
        = List.replicate LINES (List.replicate COLS 0x40) := by
      rw [hdec]
      have : ∀ i ∈ List.range LINES,
          ((List.replicate HEADER_SIZE (0x40 : Nat)).drop (i * COLS)).take COLS
            = List.replicate COLS 0x40 := by
        intro i hi
        have hi40 : i < 40 := by simpa [LINES] using List.mem_range.mp hi
        have : min COLS (HEADER_SIZE - i * COLS) = COLS := by
          simp only [HEADER_SIZE, LINES, COLS]
          omega
        simp [List.drop_replicate, List.take_replicate, this]
      rw [List.map_congr_left this]
      simp [List.map_const']
    rw [hrows]
    decide

/-- The string-literal expression `"hello"` used to separate static
validation from evaluation. -/
def c9Expr : Expr := .const (.str "hello")

/-- C9: static validation is incomplete with respect to evaluation: the
string-literal expression passes `validate_expression` for every list of
available variable names (its walk meets no `Name` or `Call` node), yet
`_eval_node` raises the unsupported-constant `ExpressionError` on it in
every variable environment. -/
theorem c9_validate_incomplete_for_evaluate :
    (∀ vars : List String, validateWalk vars c9Expr = none)
    ∧ (∀ env : Env, evalNode env c9Expr = .error (.unsupportedConstant "str")) :=
  ⟨fun _ => rfl, fun _ => rfl⟩

/-- The all-zero-digit textual header (codepoint 0x30 everywhere), whose
EBCDIC encoding (3200 bytes 0xF0) is unambiguously detected. -/
def allZeroDigits : List (List Nat) := List.replicate LINES (List.replicate COLS 0x30)

set_option maxRecDepth 8192 in
/-- C4 amended-claim witness: a concrete EBCDIC header that detection
identifies correctly and that therefore round-trips. -/
theorem c4_roundtrip_when_detected_witness :
    decode_textual_header (encode_textual_header allZeroDigits "EBCDIC") = allZeroDigits := by
  refine c4_roundtrip_when_detected allZeroDigits "EBCDIC"
    (by simp [allZeroDigits]) ?_ (Or.inl rfl) ?_ ?_
  · intro l hl
    rw [List.eq_of_mem_replicate hl]
    simp
  · intro l hl c hc
    rw [List.eq_of_mem_replicate hl] at hc
    rw [List.eq_of_mem_replicate hc, inCharset, if_pos rfl]
    decide
  · have hence : encode_textual_header allZeroDigits "EBCDIC"
        = List.replicate HEADER_SIZE 0xF0 := by
      have h30 : encodeChar "EBCDIC" 0x30 = 0xF0 := by decide
      simpa [h30] using encode_uniform 0x30 "EBCDIC"
    rw [hence]
    have h1 : detect_encoding (List.replicate HEADER_SIZE 0xF0) = "EBCDIC" := by
      simp only [detect_encoding, List.length_replicate, List.take_replicate, Nat.min_self,
        List.countP_replicate]
      norm_num [HEADER_SIZE, LINES, COLS]
    exact h1

/-! ## Header field maps (`io/reader.py`) and field resolution
(`core/binary_editor.py`, `core/trace_editor.py`)

Each map entry is `(name, segyio enum value, dtype, byte offset)`; the
segyio enum values are the library's numeric constants (absolute 1-based
byte positions: file positions for `BinField`, positions within the
240-byte trace header for `TraceField`). -/

/-- `BINARY_FIELD_MAP`: name to (segyio `BinField` value, dtype, byte
offset from 3200). -/
def BINARY_FIELD_MAP : List (String × Int × String × Int) := [
  ("job_id", 3201, "int32", 1),
  ("line_number", 3205, "int32", 5),
  ("reel_number", 3209, "int32", 9),
  ("traces_per_ensemble", 3213, "int16", 13),
  ("aux_traces_per_ensemble", 3215, "int16", 15),
  ("sample_interval", 3217, "int16", 17),
  ("sample_interval_original", 3219, "int16", 19),
  ("samples_per_trace", 3221, "int16", 21),
  ("samples_per_trace_orig", 3223, "int16", 23),
  ("format_code", 3225, "int16", 25),
  ("ensemble_fold", 3227, "int16", 27),
  ("trace_sorting", 3229, "int16", 29),
  ("vertical_sum", 3231, "int16", 31),
  ("sweep_freq_start", 3233, "int16", 33),
  ("sweep_freq_end", 3235, "int16", 35),
  ("sweep_length", 3237, "int16", 37),
  ("sweep_type", 3239, "int16", 39),
  ("sweep_trace_number", 3241, "int16", 41),
  ("sweep_taper_start", 3243, "int16", 43),
  ("sweep_taper_end", 3245, "int16", 45),
  ("taper_type", 3247, "int16", 47),
  ("correlated", 3249, "int16", 49),
  ("binary_gain", 3251, "int16", 51),
  ("amplitude_recovery", 3253, "int16", 53),
  ("measurement_system", 3255, "int16", 55),
  ("impulse_polarity", 3257, "int16", 57),
  ("vibratory_polarity", 3259, "int16", 59),
  ("segy_revision", 3501, "int16", 301),
  ("fixed_length_trace", 3503, "int16", 303),
  ("extended_headers", 3505, "int16", 305)]

/-- `TRACE_FIELD_MAP`: name to (segyio `TraceField` value, dtype, byte
offset).  Note `cdp_trace` and `samples` both carry the source's
`TRACE_SAMPLE_COUNT` enum (value 115), at distinct offsets. -/
def TRACE_FIELD_MAP : List (String × Int × String × Int) := [
  ("trace_sequence_line", 1, "int32", 1),
  ("trace_sequence_file", 5, "int32", 5),
  ("field_record", 9, "int32", 9),
  ("trace_number", 13, "int32", 13),
  ("energy_source_point", 17, "int32", 17),
  ("cdp", 21, "int32", 21),
  ("cdp_trace", 115, "int32", 25),
  ("trace_id", 29, "int16", 29),
  ("vertically_summed", 31, "int16", 31),
  ("horizontally_stacked", 33, "int16", 33),
  ("data_use", 35, "int16", 35),
  ("offset", 37, "int32", 37),
  ("receiver_elevation", 41, "int32", 41),
  ("source_surface_elevation", 45, "int32", 45),
  ("source_depth", 49, "int32", 49),
  ("datum_elevation_receiver", 53, "int32", 53),
  ("datum_elevation_source", 57, "int32", 57),
  ("water_depth_source", 61, "int32", 61),
  ("water_depth_receiver", 65, "int32", 65),
  ("elevation_scalar", 69, "int16", 69),
  ("coordinate_scalar", 71, "int16", 71),
  ("source_x", 73, "int32", 73),
  ("source_y", 77, "int32", 77),
  ("group_x", 81, "int32", 81),
  ("group_y", 85, "int32", 85),
  ("coordinate_units", 89, "int16", 89),
  ("weathering_velocity", 91, "int16", 91),
  ("subweathering_velocity", 93, "int16", 93),
  ("uphole_time_source", 95, "int16", 95),
  ("uphole_time_receiver", 97, "int16", 97),
  ("source_static", 99, "int16", 99),
  ("receiver_static", 101, "int16", 101),
  ("total_static", 103, "int16", 103),
  ("lag_time_a", 105, "int16", 105),
  ("lag_time_b", 107, "int16", 107),
  ("delay_recording_time", 109, "int16", 109),
  ("mute_time_start", 111, "int16", 111),
  ("mute_time_end", 113, "int16", 113),
  ("samples", 115, "int16", 115),
  ("sample_interval", 117, "int16", 117),
  ("inline", 189, "int32", 189),
  ("crossline", 193, "int32", 193),
  ("shotpoint", 197, "int32", 197),
  ("shotpoint_scalar", 201, "int16", 201),
  ("cdp_x", 181, "int32", 181),
  ("cdp_y", 185, "int32", 185)]

/-- `TraceHeaderEdit` (`models.py`).  The `expression` and `condition`
string fields are embedded at the AST level: `none` models the empty
string (which is falsy, so no condition gating), `some e` a string that
parses to `e`. -/
structure TraceHeaderEdit where
  field_name : String := ""
  byte_offset : Option Int := none
  mode : String := "set"
  value : Option Rat := none
  expression : Option Expr := none
  condition : Option Expr := none
  source_field : String := ""
  csv_path : String := ""
  csv_column : String := ""
  dtype : String := "int32"

/-- `BinaryHeaderEdit` (`models.py`). -/
structure BinaryHeaderEdit where
  field_name : String := ""
  byte_offset : Option Int := none
  value : Rat := 0
  dtype : String := "int16"

/-- Name lookup in `TRACE_FIELD_MAP` (`edit.field_name in TRACE_FIELD_MAP`
plus `TRACE_FIELD_MAP[edit.field_name]`). -/
def traceMapLookup (name : String) : Option (Int × String × Int) :=
  (TRACE_FIELD_MAP.find? fun e => e.1 == name).map (·.2)

/-- Name lookup in `BINARY_FIELD_MAP`. -/
def binaryMapLookup (name : String) : Option (Int × String × Int) :=
  (BINARY_FIELD_MAP.find? fun e => e.1 == name).map (·.2)

/-- `TraceHeaderEditor.resolve_field`: prefer name lookup, fall back to
the first map entry with a matching byte offset, then to the raw offset;
error when neither a name nor an offset is given. -/
def resolveTraceField (edit : TraceHeaderEdit) : Except String Int :=
  match (if edit.field_name ≠ "" then traceMapLookup edit.field_name else none) with
  | some entry => .ok entry.1
  | none =>
      match edit.byte_offset with
      | some off =>
          match TRACE_FIELD_MAP.find? (fun e => e.2.2.2 == off) with
          | some e => .ok e.2.1
          | none => .ok off
      | none => .error "Cannot resolve trace header field"

/-- `BinaryHeaderEditor.resolve_field`: the same strategy over
`BINARY_FIELD_MAP`. -/
def resolveBinaryField (edit : BinaryHeaderEdit) : Except String Int :=
  match (if edit.field_name ≠ "" then binaryMapLookup edit.field_name else none) with
  | some entry => .ok entry.1
  | none =>
      match edit.byte_offset with
      | some off =>
          match BINARY_FIELD_MAP.find? (fun e => e.2.2.2 == off) with
          | some e => .ok e.2.1
          | none => .ok off
      | none => .error "Cannot resolve binary header field"

/-- C7: byte offsets are unique within each field map, and for every map
entry, resolving an edit by the entry's name and resolving by its declared
byte offset yield the same field identifier (the segyio enum value). -/
theorem c7_field_resolution_name_offset_agree :
    (TRACE_FIELD_MAP.map fun e => e.2.2.2).Nodup
    ∧ (BINARY_FIELD_MAP.map fun e => e.2.2.2).Nodup
    ∧ (TRACE_FIELD_MAP.all fun e =>
        decide (resolveTraceField { field_name := e.1 } = .ok e.2.1)
        && decide (resolveTraceField { byte_offset := some e.2.2.2 } = .ok e.2.1)) = true
    ∧ (BINARY_FIELD_MAP.all fun e =>
        decide (resolveBinaryField { field_name := e.1 } = .ok e.2.1)
        && decide (resolveBinaryField { byte_offset := some e.2.2.2 } = .ok e.2.1)) = true := by
  refine ⟨by decide, by decide, by decide, by decide⟩

/-! ## Validator (`core/validator.py`, data model from `models.py`)

Statuses, check names, categories and branch conditions are kept faithful;
interpolated numeric display strings in `message`/`details` are elided (a
fixed label is kept), and the construction-time timestamp is outside the
model. -/

/-- `ValidationCheck` (`models.py`). -/
structure ValidationCheck where
  name : String := ""
  category : String := ""
  status : String := "PASS"
  message : String := ""
  details : String := ""
deriving DecidableEq, Repr

/-- `ValidationResult` (`models.py`), minus the wall-clock timestamp. -/
structure ValidationResult where
  filename : String := ""
  overall_status : String := "PASS"
  checks : List ValidationCheck := []
deriving DecidableEq, Repr

/-- Per-field sampled statistics, one inner dict of
`trace_header_summary`; a missing key reads as 0 via `.get(..., 0)`,
matching the defaults here. -/
structure FieldStats where
  min : Rat := 0
  max : Rat := 0
  mean : Rat := 0
  std : Rat := 0
deriving DecidableEq, Repr

/-- `SegyFileInfo` (`models.py`), restricted to the fields the validator
and engine consume (the textual-header payload fields are unused there). -/
structure SegyFileInfo where
  path : String := ""
  filename : String := ""
  file_size_bytes : Int := 0
  format_code : Int := 0
  sample_interval : Int := 0
  samples_per_trace : Int := 0
  trace_count : Int := 0
  bytes_per_sample : Int := 0
  expected_file_size : Int := 0
  binary_header : List (String × Int) := []
  trace_header_summary : List (String × FieldStats) := []
  coordinate_scalar : Int := 0
deriving Repr

/-- `FORMAT_BPS` (`models.py`): format code to bytes per sample. -/
def FORMAT_BPS : List (Int × Int) := [(1, 4), (2, 4), (3, 2), (5, 4), (6, 8), (8, 1)]

/-- `info.trace_header_summary.get(name, {})` with the inner
`.get(stat, 0)` reads folded into `FieldStats`'s zero defaults. -/
def SegyFileInfo.summaryStats (info : SegyFileInfo) (name : String) : FieldStats :=
  ((info.trace_header_summary.find? fun e => e.1 == name).map (·.2)).getD {}

/-- The optional coordinate-bounds dict; absent keys are `none`
(`bounds.get(key)`). -/
structure CoordinateBounds where
  x_min : Option Rat := none
  x_max : Option Rat := none
  y_min : Option Rat := none
  y_max : Option Rat := none
deriving DecidableEq, Repr

/-- `SegyValidator.__init__` configuration.  `none` for
`coordinate_bounds` covers both `None` and the empty dict (both falsy in
the `self._check_coords and self.coordinate_bounds` guard). -/
structure SegyValidator where
  coordinate_bounds : Option CoordinateBounds := none
  check_structure : Bool := true
  check_binary_header : Bool := true
  check_trace_header : Bool := true
  check_coordinate_range : Bool := true
deriving Repr

/-- `SegyValidator._validate_structure`. -/
def validateStructure (info : SegyFileInfo) : List ValidationCheck :=
  let sizeChecks :=
    if 0 < info.expected_file_size then
      if info.file_size_bytes = info.expected_file_size then
        [{ name := "File Size Consistency", category := "structure", status := "PASS",
           message := "File size matches expected" }]
      else
        [{ name := "File Size Consistency", category := "structure", status := "FAIL",
           message := "File size does not match expected structure",
           details := "actual vs expected size and formula" }]
    else
      [{ name := "File Size Consistency", category := "structure", status := "WARNING",
         message := "Cannot verify file size (missing header info)" }]
  let minSizeChecks :=
    if info.file_size_bytes < 3600 then
      [{ name := "Minimum File Size", category := "structure", status := "FAIL",
         message := "File too small (minimum 3600 for header)" }]
    else []
  let traceCountChecks :=
    if info.trace_count ≤ 0 then
      [{ name := "Trace Count", category := "structure", status := "FAIL",
         message := "Invalid trace count" }]
    else
      [{ name := "Trace Count", category := "structure", status := "PASS",
         message := "Trace count" }]
  sizeChecks ++ minSizeChecks ++ traceCountChecks

/-- `SegyValidator._validate_binary_header`. -/
def validateBinaryHeader (info : SegyFileInfo) : List ValidationCheck :=
  let intervalChecks :=
    if info.sample_interval ≤ 0 then
      [{ name := "Sample Interval", category := "binary_header", status := "FAIL",
         message := "Invalid sample interval" }]
    else
      [{ name := "Sample Interval", category := "binary_header", status := "PASS",
         message := "Sample interval" }]
  let samplesChecks :=
    if info.samples_per_trace ≤ 0 then
      [{ name := "Samples per Trace", category := "binary_header", status := "FAIL",
         message := "Invalid samples per trace" }]
    else if 100000 < info.samples_per_trace then
      [{ name := "Samples per Trace", category := "binary_header", status := "WARNING",
         message := "Unusually high samples per trace" }]
    else
      [{ name := "Samples per Trace", category := "binary_header", status := "PASS",
         message := "Samples per trace" }]
  let formatChecks :=
    if (FORMAT_BPS.find? fun e => e.1 == info.format_code) = none then
      [{ name := "Data Format Code", category := "binary_header", status := "FAIL",
         message := "Unknown format code", details := "valid codes list" }]
    else
      [{ name := "Data Format Code", category := "binary_header", status := "PASS",
         message := "Format code" }]
  intervalChecks ++ samplesChecks ++ formatChecks

/-- `SegyValidator._validate_trace_headers`. -/
def validateTraceHeaders (info : SegyFileInfo) : List ValidationCheck :=
  let scalarStats := info.summaryStats "coordinate_scalar"
  let scalarChecks :=
    if scalarStats.min ≠ scalarStats.max then
      [{ name := "Coordinate Scalar Consistency", category := "trace_header",
         status := "WARNING", message := "Coordinate scalar varies across traces",
         details := "min and max" }]
    else
      [{ name := "Coordinate Scalar Consistency", category := "trace_header",
         status := "PASS", message := "Coordinate scalar (consistent)" }]
  let coordChecks :=
    (["source_x", "source_y", "cdp_x", "cdp_y"].map fun coordName =>
      let stats := info.summaryStats coordName
      if 0 < stats.std ∧ stats.mean ≠ 0 then
        let rangeRatio := (stats.max - stats.min) / |stats.mean|
        if 1 < rangeRatio then
          [{ name := "Coordinate Range: " ++ coordName, category := "trace_header",
             status := "WARNING", message := "high variability",
             details := "min max mean std" }]
        else
          [{ name := "Coordinate Range: " ++ coordName, category := "trace_header",
             status := "PASS", message := "range" }]
      else if stats.min = 0 ∧ stats.max = 0 ∧ stats.mean = 0 then
        [{ name := "Coordinate Range: " ++ coordName, category := "trace_header",
           status := "WARNING", message := "all zeros" }]
      else []).flatten
  scalarChecks ++ coordChecks

/-- `SegyValidator._validate_coordinate_range` for one coordinate field
given its resolved (min-bound, max-bound) pair. -/
def boundsChecksFor (info : SegyFileInfo) (scaleFactor : Rat)
    (fieldName : String) (boundMin boundMax : Option Rat) : List ValidationCheck :=
  let stats := info.summaryStats fieldName
  let fieldMin := stats.min * scaleFactor
  let fieldMax := stats.max * scaleFactor
  if fieldMin = 0 ∧ fieldMax = 0 then []
  else
    (match boundMin with
      | some bm =>
          if fieldMin < bm then
            [{ name := "Bounds Check: " ++ fieldName, category := "trace_header",
               status := "WARNING", message := "min below bound" }]
          else []
      | none => [])
    ++ (match boundMax with
      | some bm =>
          if bm < fieldMax then
            [{ name := "Bounds Check: " ++ fieldName, category := "trace_header",
               status := "WARNING", message := "max above bound" }]
          else []
      | none => [])

/-- `SegyValidator._validate_coordinate_range`: scale sampled min/max by
the coordinate scalar (negative scalar divides, positive multiplies, zero
is 1.0) and warn per field when outside the configured bounds. -/
def validateCoordinateRange (info : SegyFileInfo) (bounds : CoordinateBounds) :
    List ValidationCheck :=
  let scalar := info.coordinate_scalar
  let scaleFactor : Rat :=
    if scalar < 0 then 1 / |(scalar : Rat)|
    else if 0 < scalar then (scalar : Rat)
    else 1
  boundsChecksFor info scaleFactor "source_x" bounds.x_min bounds.x_max
    ++ boundsChecksFor info scaleFactor "source_y" bounds.y_min bounds.y_max
    ++ boundsChecksFor info scaleFactor "cdp_x" bounds.x_min bounds.x_max
    ++ boundsChecksFor info scaleFactor "cdp_y" bounds.y_min bounds.y_max

/-- `SegyValidator.validate`: run the configured check groups, then
aggregate FAIL over WARNING over PASS. -/
def SegyValidator.validate (v : SegyValidator) (info : SegyFileInfo) : ValidationResult :=
  let checks :=
    (if v.check_structure then validateStructure info else [])
    ++ (if v.check_binary_header then validateBinaryHeader info else [])
    ++ (if v.check_trace_header then validateTraceHeaders info else [])
    ++ (if v.check_coordinate_range then
          match v.coordinate_bounds with
          | some b => validateCoordinateRange info b
          | none => []
        else [])
  let overall :=
    if checks.any fun c => c.status == "FAIL" then "FAIL"
    else if checks.any fun c => c.status == "WARNING" then "WARNING"
    else "PASS"
  { filename := info.filename, overall_status := overall, checks := checks }

/-- `SegyValidator.validate_post_edit`: structural and binary checks on
the edited file plus drift detection on unedited binary-header fields.
`edited_fields = []` covers both `None` and the empty set (falsy guard). -/
def SegyValidator.validatePostEdit (_v : SegyValidator) (before after : SegyFileInfo)
    (edited_fields : List String) : ValidationResult :=
  let structural := validateStructure after ++ validateBinaryHeader after
  let drift :=
    if edited_fields ≠ [] then
      (before.binary_header.map fun p =>
        let afterVal := ((after.binary_header.find? fun q => q.1 == p.1).map (·.2)).getD p.2
        if p.1 ∉ edited_fields ∧ p.2 ≠ afterVal then
          [{ name := "Unintended Change: " ++ p.1, category := "post_edit",
             status := "WARNING", message := "Binary header field changed unexpectedly",
             details := "before and after values" }]
        else []).flatten
    else []
  let checks := structural ++ drift
  let overall :=
    if checks.any fun c => c.status == "FAIL" then "FAIL"
    else if checks.any fun c => c.status == "WARNING" then "WARNING"
    else "PASS"
  { filename := after.filename, overall_status := overall, checks := checks }

/-- The aggregation rule as the spec words it: FAIL if any check is FAIL,
else WARNING if any is WARNING, else PASS. -/
def specOverallStatus (checks : List ValidationCheck) : String :=
  if checks.any fun c => c.status == "FAIL" then "FAIL"
  else if checks.any fun c => c.status == "WARNING" then "WARNING"
  else "PASS"

/-- C3: for every configuration and file snapshot, the `overall_status` of
`validate` (and of `validate_post_edit`) is exactly the spec's aggregation
of the produced check list: FAIL when any check is FAIL, else WARNING when
any check is WARNING, else PASS. -/
theorem c3_overall_status_aggregation (v : SegyValidator) (info before after : SegyFileInfo)
    (edited_fields : List String) :
    (v.validate info).overall_status = specOverallStatus (v.validate info).checks
    ∧ (v.validatePostEdit before after edited_fields).overall_status
        = specOverallStatus (v.validatePostEdit before after edited_fields).checks :=
  ⟨rfl, rfl⟩

/-! ## Trace header editor (`core/trace_editor.py`)

`segyio`'s per-trace header object is modelled as an association list from
field-enum values to integers; reads of absent keys give 0 (the
`except (KeyError, TypeError): variables[name] = 0` path of
`_build_variables`).  A write `header[field] = v` updates the stored
entry.  The per-trace loop is split into a per-trace outcome function
(`traceStep`, the body of the `try` block) and an accumulator loop
(`applyLoop`, the `for` loop with its change-sampling and error-capping
counters); the composition is semantically the loop of `apply_edit`. -/

/-- A trace header: association of segyio field enum to value. -/
abbrev Header := List (Int × Int)

/-- Read `header[field]` with absent keys as 0. -/
def headerGet (h : Header) (field : Int) : Int :=
  ((h.find? fun e => e.1 == field).map (·.2)).getD 0

/-- Write `header[field] = v`. -/
def headerSet (h : Header) (field : Int) (v : Int) : Header :=
  if (h.find? fun e => e.1 == field).isSome then
    h.map fun e => if e.1 == field then (e.1, v) else e
  else h ++ [(field, v)]

/-- `ChangeRecord` (`models.py`), minus the wall-clock timestamp;
before/after values are stored as display strings (`str(...)`). -/
structure ChangeRecord where
  filename : String := ""
  field_type : String := ""
  field_name : String := ""
  trace_index : Option Nat := none
  before_value : String := ""
  after_value : String := ""
deriving DecidableEq, Repr

/-- A parsed CSV file (`pd.read_csv` result): column names and rows of
column-to-number cells. -/
structure CsvFile where
  columns : List String := []
  rows : List (List (String × Rat)) := []
deriving Repr

/-- `TraceHeaderEditor._build_variables`: the synthetic `trace_index` plus
every `TRACE_FIELD_MAP` field's header value (absent fields read 0). -/
def buildVariables (h : Header) (traceIndex : Nat) : Env :=
  ("trace_index", (traceIndex : Rat)) ::
    TRACE_FIELD_MAP.map fun e => (e.1, (headerGet h e.2.1 : Rat))

/-- Evaluation of a stored expression string: `none` models the empty
string, whose parse raises the syntax-error `ExpressionError`. -/
def evalExprSrc (env : Env) : Option Expr → Except EvalError Val
  | some e => evalNode env e
  | none => .error (.syntaxError "empty expression")

/-- The outcome of the loop body (`try` block) for one trace. -/
inductive TraceOutcome
  | skipped
  | unchanged
  | written (before new : Int)
  | errored (e : EvalError)
deriving DecidableEq, Repr

/-- The `try` block of `apply_edit` for trace `i`: condition gate, then
per-mode new-value computation, then the `new != before` write test.  An
unknown mode falls through to `continue` (`skipped`), as do a missing CSV
row or column. -/
def traceStep (edit : TraceHeaderEdit) (csv : Option CsvFile)
    (sourceValues : Option (List Int)) (targetField : Int)
    (h : Header) (i : Nat) : TraceOutcome :=
  let gate : Except EvalError Bool :=
    match edit.condition with
    | some c => (evalNode (buildVariables h i) c).map Val.truthy
    | none => .ok true
  match gate with
  | .error e => .errored e
  | .ok false => .skipped
  | .ok true =>
      let beforeValue := headerGet h targetField
      let newValue : Except EvalError (Option Int) :=
        if edit.mode == "set" then
          match edit.value with
          | some q => .ok (some (pyTrunc q))
          | none => .error (.uncaughtException "int() argument is None")
        else if edit.mode == "expression" then
          (evalExprSrc (buildVariables h i) edit.expression).map fun v =>
            some (pyRound v.toRat)
        else if edit.mode == "copy" then
          match sourceValues with
          | some vals => .ok (some (vals.getD i 0))
          | none => .ok (some beforeValue)
        else if edit.mode == "csv_import" then
          match csv with
          | some data =>
              if i < data.rows.length then
                let col := if edit.csv_column ≠ "" then edit.csv_column else edit.field_name
                if col ∈ data.columns then
                  .ok (some (pyTrunc
                    ((((data.rows.getD i []).find? fun p => p.1 == col).map (·.2)).getD 0)))
                else .ok none
              else .ok none
          | none => .ok none
        else .ok none
      match newValue with
      | .error e => .errored e
      | .ok none => .skipped
      | .ok (some n) =>
          if n ≠ beforeValue then .written beforeValue n else .unchanged

/-- `TraceHeaderEditor.get_display_name` (display-string details elided
for the offset fallbacks). -/
def getTraceDisplayName (edit : TraceHeaderEdit) : String :=
  if edit.field_name ≠ "" ∧ (traceMapLookup edit.field_name).isSome then edit.field_name
  else
    match edit.byte_offset with
    | some off =>
        match TRACE_FIELD_MAP.find? (fun e => e.2.2.2 == off) with
        | some e => e.1 ++ " (byte offset)"
        | none => "byte_offset_unresolved"
    | none => if edit.field_name ≠ "" then edit.field_name else "unknown"

/-- The `ChangeRecord` appended for a sampled write. -/
def mkChangeRecord (filename displayName : String) (i : Nat) (before new : Int) :
    ChangeRecord :=
  { filename := filename, field_type := "trace_header", field_name := displayName,
    trace_index := some i, before_value := toString before,
    after_value := toString new }

/-- The `for i in range(ntraces)` loop: per-trace outcomes feed the output
file, the sampled change list (`len(changes) < 10000 or i % 100 == 0`) and
the capped error list (`len(errors) < 10`). -/
def applyLoop (edit : TraceHeaderEdit) (csv : Option CsvFile)
    (sourceValues : Option (List Int)) (targetField : Int)
    (filename displayName : String) :
    List Header → Nat → List ChangeRecord → List EvalError →
      List Header × List ChangeRecord × List EvalError
  | [], _, changes, errors => ([], changes, errors)
  | h :: rest, i, changes, errors =>
      match traceStep edit csv sourceValues targetField h i with
      | .skipped =>
          let r := applyLoop edit csv sourceValues targetField filename displayName
            rest (i + 1) changes errors
          (h :: r.1, r.2)
      | .unchanged =>
          let r := applyLoop edit csv sourceValues targetField filename displayName
            rest (i + 1) changes errors
          (h :: r.1, r.2)
      | .errored e =>
          let errors2 := if errors.length < 10 then errors ++ [e] else errors
          let r := applyLoop edit csv sourceValues targetField filename displayName
            rest (i + 1) changes errors2
          (h :: r.1, r.2)
      | .written before new =>
          let h2 := headerSet h targetField new
          let changes2 :=
            if changes.length < 10000 ∨ i % 100 = 0 then
              changes ++ [mkChangeRecord filename displayName i before new]
            else changes
          let r := applyLoop edit csv sourceValues targetField filename displayName
            rest (i + 1) changes2 errors
          (h2 :: r.1, r.2)

/-- What one trace of the output file looks like: written traces carry the
new value, all others are byte-identical to the input. -/
def stepFileOut (edit : TraceHeaderEdit) (csv : Option CsvFile)
    (sourceValues : Option (List Int)) (targetField : Int)
    (h : Header) (i : Nat) : Header :=
  match traceStep edit csv sourceValues targetField h i with
  | .written _ new => headerSet h targetField new
  | _ => h

/-- The state of `apply_edit` after the loop: output file, sampled change
records, capped error messages. -/
structure EditRunOutput where
  file : List Header
  changes : List ChangeRecord
  errors : List EvalError
deriving Repr

/-- `apply_edit` up to the end of the loop.  Pre-loop failures
(unresolvable target field, CSV load error, unknown copy source) abort the
whole edit (`.error`); `loadCsv` stands for the filesystem read of
`_load_csv`. -/
def applyEditRun (edit : TraceHeaderEdit) (file : List Header)
    (loadCsv : String → Except String CsvFile) (filename : String) :
    Except String EditRunOutput := do
  let targetField ← resolveTraceField edit
  let displayName := getTraceDisplayName edit
  let csv : Option CsvFile ←
    if edit.mode == "csv_import" ∧ edit.csv_path ≠ "" then
      (loadCsv edit.csv_path).map some
    else .ok none
  let sourceValues : Option (List Int) ←
    if edit.mode == "copy" ∧ edit.source_field ≠ "" then
      match traceMapLookup edit.source_field with
      | some entry => .ok (some (file.map fun h => headerGet h entry.1))
      | none => .error ("Unknown source field: " ++ edit.source_field)
    else .ok none
  let r := applyLoop edit csv sourceValues targetField filename displayName file 0 [] []
  .ok { file := r.1, changes := r.2.1, errors := r.2.2 }

/-- The aggregate `RuntimeError` message raised after the loop (joined
per-trace messages elided). -/
def aggregateErrorMessage (displayName : String) (_errors : List EvalError) : String :=
  "Errors during trace header edit " ++ displayName

/-- The raise-if-errors step after the loop. -/
def applyEditFinal (displayName : String) (out : EditRunOutput) :
    Except String (List ChangeRecord) :=
  if out.errors = [] then .ok out.changes
  else .error (aggregateErrorMessage displayName out.errors)

/-- `apply_edit` as a whole: the mutated file paired with either the
change list or the aggregate error — the pair models that writes made
before the aggregate raise are retained. -/
def applyEditResult (edit : TraceHeaderEdit) (file : List Header)
    (loadCsv : String → Except String CsvFile) (filename : String) :
    Except String (List Header × Except String (List ChangeRecord)) :=
  (applyEditRun edit file loadCsv filename).map fun out =>
    (out.file, applyEditFinal (getTraceDisplayName edit) out)

section ApplyLoopLemmas

variable (edit : TraceHeaderEdit) (csv : Option CsvFile)
  (sourceValues : Option (List Int)) (targetField : Int)
  (filename displayName : String)

/-- The loop visits every trace: the output file is as long as the input. -/
theorem applyLoop_file_length (hs : List Header) :
    ∀ (i : Nat) (cs : List ChangeRecord) (es : List EvalError),
      (applyLoop edit csv sourceValues targetField filename displayName hs i cs es).1.length
        = hs.length := by
  induction hs with
  | nil => intro i cs es; rfl
  | cons h rest ih =>
      intro i cs es
      cases hstep : traceStep edit csv sourceValues targetField h i <;>
        simp [applyLoop, hstep, ih]

/-- Each output trace is determined by its own input trace's outcome,
independent of what happened on other traces. -/
theorem applyLoop_file_get (hs : List Header) :
    ∀ (i : Nat) (cs : List ChangeRecord) (es : List EvalError) (k : Nat)
      (hk : k < hs.length),
      (applyLoop edit csv sourceValues targetField filename displayName hs i cs es).1[k]?
        = some (stepFileOut edit csv sourceValues targetField (hs.get ⟨k, hk⟩) (i + k)) := by
  induction hs with
  | nil => intro i cs es k hk; exact absurd hk (by simp)
  | cons h rest ih =>
      intro i cs es k hk
      cases k with
      | zero =>
          cases hstep : traceStep edit csv sourceValues targetField h i <;>
            simp [applyLoop, hstep, stepFileOut]
      | succ k =>
          have hk2 : k < rest.length := by simpa using hk
          have harith : i + (k + 1) = (i + 1) + k := by omega
          cases hstep : traceStep edit csv sourceValues targetField h i <;>
            simp only [applyLoop, hstep, List.getElem?_cons_succ, List.get_cons_succ] <;>
            rw [harith] <;> exact ih (i + 1) _ _ k hk2

/-- Every record in the loop's change list either was in the accumulator
already or stems from a trace whose outcome was a write. -/
theorem applyLoop_changes_mem (hs : List Header) :
    ∀ (i : Nat) (cs : List ChangeRecord) (es : List EvalError) (r : ChangeRecord),
      r ∈ (applyLoop edit csv sourceValues targetField filename displayName hs i cs es).2.1 →
        r ∈ cs ∨ ∃ k, ∃ (hk : k < hs.length), ∃ b n,
          traceStep edit csv sourceValues targetField (hs.get ⟨k, hk⟩) (i + k)
            = .written b n
          ∧ r = mkChangeRecord filename displayName (i + k) b n := by
  induction hs with
  | nil =>
      intro i cs es r hr
      exact Or.inl (by simpa [applyLoop] using hr)
  | cons h rest ih =>
      intro i cs es r hr
      have lift : ∀ (cs2 : List ChangeRecord) (es2 : List EvalError),
          r ∈ (applyLoop edit csv sourceValues targetField filename displayName
            rest (i + 1) cs2 es2).2.1 →
          r ∈ cs2 ∨ ∃ k, ∃ (hk : k < (h :: rest).length), ∃ b n,
            traceStep edit csv sourceValues targetField ((h :: rest).get ⟨k, hk⟩) (i + k)
              = .written b n
            ∧ r = mkChangeRecord filename displayName (i + k) b n := by
        intro cs2 es2 hmem
        rcases ih (i + 1) cs2 es2 r hmem with hin | ⟨k, hk, b, n, hw, hr2⟩
        · exact Or.inl hin
        · right
          refine ⟨k + 1, by simpa using Nat.succ_lt_succ hk, b, n, ?_, ?_⟩
          · have harith : i + (k + 1) = (i + 1) + k := by omega
            rw [harith]
            simpa using hw
          · have harith : i + (k + 1) = (i + 1) + k := by omega
            rw [harith]
            exact hr2
      cases hstep : traceStep edit csv sourceValues targetField h i with
      | skipped =>
          rw [applyLoop] at hr
          simp only [hstep] at hr
          exact lift cs es hr
      | unchanged =>
          rw [applyLoop] at hr
          simp only [hstep] at hr
          exact lift cs es hr
      | errored e =>
          rw [applyLoop] at hr
          simp only [hstep] at hr
          exact lift cs _ hr
      | written b n =>
          rw [applyLoop] at hr
          simp only [hstep] at hr
          rcases lift _ es hr with hin | hrec
          · by_cases hsamp : cs.length < 10000 ∨ i % 100 = 0
            · rw [if_pos hsamp] at hin
              rcases List.mem_append.mp hin with hin2 | hin2
              · exact Or.inl hin2
              · right
                refine ⟨0, by simp, b, n, ?_, ?_⟩
                · simpa using hstep
                · simpa using List.mem_singleton.mp hin2
            · rw [if_neg hsamp] at hin
              exact Or.inl hin
          · exact Or.inr hrec

/-- Errors already collected are never dropped by the rest of the loop. -/
theorem applyLoop_errors_mono (hs : List Header) :
    ∀ (i : Nat) (cs : List ChangeRecord) (es : List EvalError), es ≠ [] →
      (applyLoop edit csv sourceValues targetField filename displayName hs i cs es).2.2
        ≠ [] := by
  induction hs with
  | nil => intro i cs es hne; simpa [applyLoop] using hne
  | cons h rest ih =>
      intro i cs es hne
      cases hstep : traceStep edit csv sourceValues targetField h i with
      | skipped => rw [applyLoop]; simp only [hstep]; exact ih (i + 1) cs es hne
      | unchanged => rw [applyLoop]; simp only [hstep]; exact ih (i + 1) cs es hne
      | written b n => rw [applyLoop]; simp only [hstep]; exact ih (i + 1) _ es hne
      | errored e =>
          rw [applyLoop]
          simp only [hstep]
          refine ih (i + 1) cs _ ?_
          by_cases hlen : es.length < 10
          · simp [if_pos hlen]
          · rw [if_neg hlen]
            exact hne

/-- The loop's error list is nonempty exactly when it started nonempty or
some trace's outcome was an error. -/
theorem applyLoop_errors_ne (hs : List Header) :
    ∀ (i : Nat) (cs : List ChangeRecord) (es : List EvalError),
      ((applyLoop edit csv sourceValues targetField filename displayName hs i cs es).2.2
          ≠ []
        ↔ es ≠ [] ∨ ∃ k, ∃ (hk : k < hs.length), ∃ e,
            traceStep edit csv sourceValues targetField (hs.get ⟨k, hk⟩) (i + k)
              = .errored e) := by
  induction hs with
  | nil =>
      intro i cs es
      simp [applyLoop]
  | cons h rest ih =>
      intro i cs es
      have shift : ∀ (P : Prop), (P ∨ ∃ k, ∃ (hk : k < rest.length), ∃ e,
          traceStep edit csv sourceValues targetField (rest.get ⟨k, hk⟩) ((i + 1) + k)
            = .errored e) ↔
          (P ∨ ∃ k, ∃ (hk : k + 1 < (h :: rest).length), ∃ e,
            traceStep edit csv sourceValues targetField
              ((h :: rest).get ⟨k + 1, hk⟩) (i + (k + 1)) = .errored e) := by
        intro P
        constructor
        · rintro (hp | ⟨k, hk, e, he⟩)
          · exact Or.inl hp
          · refine Or.inr ⟨k, by simpa using Nat.succ_lt_succ hk, e, ?_⟩
            have harith : i + (k + 1) = (i + 1) + k := by omega
            rw [harith]
            simpa using he
        · rintro (hp | ⟨k, hk, e, he⟩)
          · exact Or.inl hp
          · refine Or.inr ⟨k, by simpa using hk, e, ?_⟩
            have harith : (i + 1) + k = i + (k + 1) := by omega
            rw [harith]
            simpa using he
      cases hstep : traceStep edit csv sourceValues targetField h i with
      | skipped =>
          rw [applyLoop]
          simp only [hstep]
          rw [ih (i + 1) cs es, shift]
          constructor
          · rintro (hp | hk)
            · exact Or.inl hp
            · right
              obtain ⟨k, hk2, e, he⟩ := hk
              exact ⟨k + 1, hk2, e, he⟩
          · rintro (hp | ⟨k, hk2, e, he⟩)
            · exact Or.inl hp
            · cases k with
              | zero => rw [show i + 0 = i from rfl] at he; simp [hstep] at he
              | succ k => exact Or.inr ⟨k, hk2, e, he⟩
      | unchanged =>
          rw [applyLoop]
          simp only [hstep]
          rw [ih (i + 1) cs es, shift]
          constructor
          · rintro (hp | hk)
            · exact Or.inl hp
            · right
              obtain ⟨k, hk2, e, he⟩ := hk
              exact ⟨k + 1, hk2, e, he⟩
          · rintro (hp | ⟨k, hk2, e, he⟩)
            · exact Or.inl hp
            · cases k with
              | zero => rw [show i + 0 = i from rfl] at he; simp [hstep] at he
              | succ k => exact Or.inr ⟨k, hk2, e, he⟩
      | written b n =>
          rw [applyLoop]
          simp only [hstep]
          rw [ih (i + 1) _ es, shift]
          constructor
          · rintro (hp | hk)
            · exact Or.inl hp
            · right
              obtain ⟨k, hk2, e, he⟩ := hk
              exact ⟨k + 1, hk2, e, he⟩
          · rintro (hp | ⟨k, hk2, e, he⟩)
            · exact Or.inl hp
            · cases k with
              | zero => rw [show i + 0 = i from rfl] at he; simp [hstep] at he
              | succ k => exact Or.inr ⟨k, hk2, e, he⟩
      | errored e0 =>
          rw [applyLoop]
          simp only [hstep]
          have hne2 : (if es.length < 10 then es ++ [e0] else es) ≠ [] := by
            by_cases hlen : es.length < 10
            · simp [if_pos hlen]
            · rw [if_neg hlen]
              intro hnil
              rw [hnil] at hlen
              exact hlen (by simp)
          constructor
          · intro _
            exact Or.inr ⟨0, by simp, e0, by simpa using hstep⟩
          · intro _
            exact applyLoop_errors_mono edit csv sourceValues targetField
              filename displayName rest (i + 1) cs _ hne2

/-- The error list never stores more than 10 messages. -/
theorem applyLoop_errors_le (hs : List Header) :
    ∀ (i : Nat) (cs : List ChangeRecord) (es : List EvalError), es.length ≤ 10 →
      (applyLoop edit csv sourceValues targetField filename displayName hs i cs es).2.2.length
        ≤ 10 := by
  induction hs with
  | nil => intro i cs es hle; simpa [applyLoop] using hle
  | cons h rest ih =>
      intro i cs es hle
      cases hstep : traceStep edit csv sourceValues targetField h i with
      | skipped => rw [applyLoop]; simp only [hstep]; exact ih (i + 1) cs es hle
      | unchanged => rw [applyLoop]; simp only [hstep]; exact ih (i + 1) cs es hle
      | written b n => rw [applyLoop]; simp only [hstep]; exact ih (i + 1) _ es hle
      | errored e =>
          rw [applyLoop]
          simp only [hstep]
          refine ih (i + 1) cs _ ?_
          by_cases hlen : es.length < 10
          · rw [if_pos hlen]
            simp
            omega
          · rw [if_neg hlen]
            exact hle

end ApplyLoopLemmas

/-- A written outcome can only arise after the condition gate evaluated to
true. -/
theorem traceStep_gate_true_of_written {edit : TraceHeaderEdit} {csv : Option CsvFile}
    {sourceValues : Option (List Int)} {targetField : Int} {h : Header} {i : Nat}
    {c : Expr} {b n : Int}
    (hcond : edit.condition = some c)
    (hw : traceStep edit csv sourceValues targetField h i = .written b n) :
    evaluateCondition (buildVariables h i) c = .ok true := by
  unfold traceStep at hw
  rw [hcond] at hw
  cases heval : evalNode (buildVariables h i) c with
  | error e => simp [heval, Except.map] at hw
  | ok v =>
      cases htr : v.truthy with
      | false => simp [heval, htr, Except.map] at hw
      | true => simp [evaluateCondition, evaluate, heval, Except.map, htr]

/-- A false condition makes the trace outcome a skip. -/
theorem traceStep_skipped_of_gate_false (edit : TraceHeaderEdit) (csv : Option CsvFile)
    (sourceValues : Option (List Int)) (targetField : Int) (h : Header) (i : Nat)
    {c : Expr}
    (hcond : edit.condition = some c)
    (hfalse : evaluateCondition (buildVariables h i) c = .ok false) :
    traceStep edit csv sourceValues targetField h i = .skipped := by
  cases heval : evalNode (buildVariables h i) c with
  | error e => simp [evaluateCondition, evaluate, heval, Except.map] at hfalse
  | ok v =>
      have htr : v.truthy = false := by
        simpa [evaluateCondition, evaluate, heval, Except.map] using hfalse
      unfold traceStep
      rw [hcond]
      simp [heval, Except.map, htr]

/-- Inversion of a successful `apply_edit` run: the target field resolved
and the output is the loop's result for some preloaded CSV/source data. -/
theorem applyEditRun_ok_inv {edit : TraceHeaderEdit} {file : List Header}
    {loadCsv : String → Except String CsvFile} {filename : String} {out : EditRunOutput}
    (hrun : applyEditRun edit file loadCsv filename = .ok out) :
    ∃ targetField csv sourceValues,
      resolveTraceField edit = .ok targetField
      ∧ applyLoop edit csv sourceValues targetField filename (getTraceDisplayName edit)
          file 0 [] []
        = (out.file, out.changes, out.errors) := by
  unfold applyEditRun at hrun
  cases hres : resolveTraceField edit with
  | error e => rw [hres] at hrun; simp [bind, Except.bind] at hrun
  | ok tf =>
      rw [hres] at hrun
      simp only [bind, Except.bind] at hrun
      by_cases hc1 : (edit.mode == "csv_import") = true ∧ edit.csv_path ≠ ""
      · rw [if_pos hc1] at hrun
        cases hload : loadCsv edit.csv_path with
        | error e => rw [hload] at hrun; simp [Except.map] at hrun
        | ok data =>
            rw [hload] at hrun
            simp only [Except.map] at hrun
            by_cases hc2 : (edit.mode == "copy") = true ∧ edit.source_field ≠ ""
            · rw [if_pos hc2] at hrun
              cases hlook : traceMapLookup edit.source_field with
              | none => rw [hlook] at hrun; simp at hrun
              | some entry =>
                  rw [hlook] at hrun
                  simp only [Except.ok.injEq] at hrun
                  refine ⟨tf, some data, some (file.map fun h => headerGet h entry.1),
                    rfl, ?_⟩
                  rw [← hrun]
            · rw [if_neg hc2] at hrun
              simp only [Except.ok.injEq] at hrun
              refine ⟨tf, some data, none, rfl, ?_⟩
              rw [← hrun]
      · rw [if_neg hc1] at hrun
        by_cases hc2 : (edit.mode == "copy") = true ∧ edit.source_field ≠ ""
        · rw [if_pos hc2] at hrun
          cases hlook : traceMapLookup edit.source_field with
          | none => rw [hlook] at hrun; simp at hrun
          | some entry =>
              rw [hlook] at hrun
              simp only [Except.ok.injEq] at hrun
              refine ⟨tf, none, some (file.map fun h => headerGet h entry.1), rfl, ?_⟩
              rw [← hrun]
        · rw [if_neg hc2] at hrun
          simp only [Except.ok.injEq] at hrun
          refine ⟨tf, none, none, rfl, ?_⟩
          rw [← hrun]

/-- C1: for a trace-header edit carrying a condition, every trace whose
condition evaluates to false is left byte-identical and gets no
`ChangeRecord`; conversely a trace that was modified or reported had its
condition evaluate to true. -/
theorem c1_condition_gating (edit : TraceHeaderEdit) (file : List Header)
    (loadCsv : String → Except String CsvFile) (filename : String)
    (c : Expr) (out : EditRunOutput)
    (hcond : edit.condition = some c)
    (hrun : applyEditRun edit file loadCsv filename = .ok out) :
    (∀ i (hi : i < file.length),
      evaluateCondition (buildVariables (file.get ⟨i, hi⟩) i) c = .ok false →
        out.file[i]? = some (file.get ⟨i, hi⟩)
        ∧ ∀ r ∈ out.changes, r.trace_index ≠ some i)
    ∧ (∀ i (hi : i < file.length),
        out.file[i]? ≠ some (file.get ⟨i, hi⟩) →
          evaluateCondition (buildVariables (file.get ⟨i, hi⟩) i) c = .ok true)
    ∧ (∀ r ∈ out.changes, ∃ i, ∃ (hi : i < file.length),
        r.trace_index = some i
        ∧ evaluateCondition (buildVariables (file.get ⟨i, hi⟩) i) c = .ok true) := by
  obtain ⟨tf, csvOpt, srcOpt, hres, hloop⟩ := applyEditRun_ok_inv hrun
  have hfileget : ∀ k (hk : k < file.length),
      out.file[k]? = some (stepFileOut edit csvOpt srcOpt tf (file.get ⟨k, hk⟩) k) := by
    intro k hk
    have hg := applyLoop_file_get edit csvOpt srcOpt tf filename
      (getTraceDisplayName edit) file 0 [] [] k hk
    rw [hloop] at hg
    simpa using hg
  have hchanges : ∀ r ∈ out.changes, ∃ k, ∃ (hk : k < file.length), ∃ b n,
      traceStep edit csvOpt srcOpt tf (file.get ⟨k, hk⟩) k = .written b n
      ∧ r = mkChangeRecord filename (getTraceDisplayName edit) k b n := by
    intro r hr
    have hmem : r ∈ (applyLoop edit csvOpt srcOpt tf filename
        (getTraceDisplayName edit) file 0 [] []).2.1 := by
      rw [hloop]; exact hr
    rcases applyLoop_changes_mem edit csvOpt srcOpt tf filename
        (getTraceDisplayName edit) file 0 [] [] r hmem with hin | ⟨k, hk, b, n, hw, hrr⟩
    · exact absurd hin (List.not_mem_nil r)
    · exact ⟨k, hk, b, n, by simpa using hw, by simpa using hrr⟩
  refine ⟨?_, ?_, ?_⟩
  · intro i hi hfalse
    have hskip := traceStep_skipped_of_gate_false edit csvOpt srcOpt tf
      (file.get ⟨i, hi⟩) i hcond hfalse
    constructor
    · rw [hfileget i hi]
      simp only [stepFileOut, hskip]
    · intro r hr hti
      obtain ⟨k, hk, b, n, hw, hrr⟩ := hchanges r hr
      have hki : k = i := by
        rw [hrr] at hti
        simpa [mkChangeRecord] using hti
      subst hki
      exact TraceOutcome.noConfusion (hw.symm.trans hskip)
  · intro i hi hne
    cases hstep : traceStep edit csvOpt srcOpt tf (file.get ⟨i, hi⟩) i with
    | written b n => exact traceStep_gate_true_of_written hcond hstep
    | skipped =>
        rw [hfileget i hi] at hne
        simp only [stepFileOut, hstep] at hne
        exact absurd rfl hne
    | unchanged =>
        rw [hfileget i hi] at hne
        simp only [stepFileOut, hstep] at hne
        exact absurd rfl hne
    | errored e =>
        rw [hfileget i hi] at hne
        simp only [stepFileOut, hstep] at hne
        exact absurd rfl hne
  · intro r hr
    obtain ⟨k, hk, b, n, hw, hrr⟩ := hchanges r hr
    refine ⟨k, hk, ?_, traceStep_gate_true_of_written hcond hw⟩
    rw [hrr]
    rfl

/-- C6: a successful run stores at most 10 per-trace errors, visits every
trace (each output trace is its own input's outcome, regardless of errors
on other traces), raises the aggregate error exactly when at least one
per-trace error occurred, and the mutated file is retained alongside the
raise. -/
theorem c6_error_aggregation (edit : TraceHeaderEdit) (file : List Header)
    (loadCsv : String → Except String CsvFile) (filename : String)
    (out : EditRunOutput)
    (hrun : applyEditRun edit file loadCsv filename = .ok out) :
    out.errors.length ≤ 10
    ∧ out.file.length = file.length
    ∧ (∃ targetField csv sourceValues,
        resolveTraceField edit = .ok targetField
        ∧ (∀ k (hk : k < file.length),
            out.file[k]? = some (stepFileOut edit csv sourceValues targetField
              (file.get ⟨k, hk⟩) k))
        ∧ ((∃ msg, applyEditFinal (getTraceDisplayName edit) out = .error msg)
            ↔ ∃ k, ∃ (hk : k < file.length), ∃ e,
                traceStep edit csv sourceValues targetField (file.get ⟨k, hk⟩) k
                  = .errored e))
    ∧ applyEditResult edit file loadCsv filename
        = .ok (out.file, applyEditFinal (getTraceDisplayName edit) out) := by
  obtain ⟨tf, csvOpt, srcOpt, hres, hloop⟩ := applyEditRun_ok_inv hrun
  have herrs : out.errors = (applyLoop edit csvOpt srcOpt tf filename
      (getTraceDisplayName edit) file 0 [] []).2.2 := by
    rw [hloop]
  have hfiles : out.file = (applyLoop edit csvOpt srcOpt tf filename
      (getTraceDisplayName edit) file 0 [] []).1 := by
    rw [hloop]
  refine ⟨?_, ?_, ⟨tf, csvOpt, srcOpt, hres, ?_, ?_⟩, ?_⟩
  · rw [herrs]
    exact applyLoop_errors_le edit csvOpt srcOpt tf filename
      (getTraceDisplayName edit) file 0 [] [] (by simp)
  · rw [hfiles]
    exact applyLoop_file_length edit csvOpt srcOpt tf filename
      (getTraceDisplayName edit) file 0 [] []
  · intro k hk
    have hg := applyLoop_file_get edit csvOpt srcOpt tf filename
      (getTraceDisplayName edit) file 0 [] [] k hk
    rw [hloop] at hg
    simpa using hg
  · have hiff := applyLoop_errors_ne edit csvOpt srcOpt tf filename
      (getTraceDisplayName edit) file 0 [] []
    rw [← herrs] at hiff
    constructor
    · rintro ⟨msg, hmsg⟩
      have hne : out.errors ≠ [] := by
        intro hnil
        rw [applyEditFinal, if_pos hnil] at hmsg
        exact Except.noConfusion hmsg
      rcases hiff.mp hne with hfalse | ⟨k, hk, e, he⟩
      · exact absurd rfl hfalse
      · exact ⟨k, hk, e, by simpa using he⟩
    · rintro ⟨k, hk, e, he⟩
      have hne : out.errors ≠ [] :=
        hiff.mpr (Or.inr ⟨k, hk, e, by simpa using he⟩)
      rw [applyEditFinal, if_neg hne]
      exact ⟨_, rfl⟩
  · rw [applyEditResult, hrun]
    rfl

/-- A trace-header edit whose mode is none of the four supported ones can
only skip a trace or fail its condition evaluation. -/
theorem traceStep_unknown_mode (edit : TraceHeaderEdit) (csv : Option CsvFile)
    (sourceValues : Option (List Int)) (targetField : Int) (h : Header) (i : Nat)
    (hmode : edit.mode ∉ (["set", "expression", "copy", "csv_import"] : List String)) :
    traceStep edit csv sourceValues targetField h i = .skipped
    ∨ ∃ e, (match edit.condition with
        | some c => evaluateCondition (buildVariables h i) c
        | none => (.ok true : Except EvalError Bool)) = .error e
      ∧ traceStep edit csv sourceValues targetField h i = .errored e := by
  simp only [List.mem_cons, List.not_mem_nil, or_false, not_or] at hmode
  obtain ⟨h1, h2, h3, h4⟩ := hmode
  have b1 : (edit.mode == "set") = false := by simpa using h1
  have b2 : (edit.mode == "expression") = false := by simpa using h2
  have b3 : (edit.mode == "copy") = false := by simpa using h3
  have b4 : (edit.mode == "csv_import") = false := by simpa using h4
  cases hcondv : edit.condition with
  | none =>
      left
      unfold traceStep
      rw [hcondv]
      simp [b1, b2, b3, b4]
  | some c =>
      cases heval : evalNode (buildVariables h i) c with
      | error e =>
          right
          refine ⟨e, by simp [evaluateCondition, evaluate, heval, Except.map], ?_⟩
          unfold traceStep
          rw [hcondv]
          simp [heval, Except.map]
      | ok v =>
          left
          unfold traceStep
          rw [hcondv]
          cases htr : v.truthy with
          | false => simp [heval, Except.map, htr]
          | true => simp [heval, Except.map, htr, b1, b2, b3, b4]

/-- C10 (amended): an edit with an unrecognized mode whose target field
resolves and whose condition (if any) evaluates without error on every
trace silently skips every trace: empty change list, no header written, no
error raised. -/
theorem c10_unknown_mode_silently_skips (edit : TraceHeaderEdit) (file : List Header)
    (loadCsv : String → Except String CsvFile) (filename : String)
    (out : EditRunOutput)
    (hmode : edit.mode ∉ (["set", "expression", "copy", "csv_import"] : List String))
    (hrun : applyEditRun edit file loadCsv filename = .ok out)
    (hcond : ∀ i (hi : i < file.length) (e : EvalError),
        (match edit.condition with
          | some c => evaluateCondition (buildVariables (file.get ⟨i, hi⟩) i) c
          | none => (.ok true : Except EvalError Bool)) ≠ .error e) :
    out.changes = [] ∧ out.file = file ∧ out.errors = []
    ∧ applyEditResult edit file loadCsv filename = .ok (file, .ok []) := by
  obtain ⟨tf, csvOpt, srcOpt, hres, hloop⟩ := applyEditRun_ok_inv hrun
  have hstepskip : ∀ i (hi : i < file.length),
      traceStep edit csvOpt srcOpt tf (file.get ⟨i, hi⟩) i = .skipped := by
    intro i hi
    rcases traceStep_unknown_mode edit csvOpt srcOpt tf (file.get ⟨i, hi⟩) i hmode
      with hsk | ⟨e, he, _⟩
    · exact hsk
    · exact absurd he (hcond i hi e)
  have hch : out.changes = [] := by
    rw [List.eq_nil_iff_forall_not_mem]
    intro r hr
    have hmem : r ∈ (applyLoop edit csvOpt srcOpt tf filename
        (getTraceDisplayName edit) file 0 [] []).2.1 := by
      rw [hloop]; exact hr
    rcases applyLoop_changes_mem edit csvOpt srcOpt tf filename
        (getTraceDisplayName edit) file 0 [] [] r hmem with hin | ⟨k, hk, b, n, hw, _⟩
    · exact List.not_mem_nil r hin
    · have := hstepskip k hk
      rw [show (0 : Nat) + k = k from by omega] at hw
      rw [hw] at this
      exact TraceOutcome.noConfusion this
  have hlen : out.file.length = file.length := by
    have := applyLoop_file_length edit csvOpt srcOpt tf filename
      (getTraceDisplayName edit) file 0 [] []
    rw [hloop] at this
    simpa using this
  have hfl : out.file = file := by
    apply List.ext_getElem?
    intro k
    by_cases hk : k < file.length
    · have hg := applyLoop_file_get edit csvOpt srcOpt tf filename
        (getTraceDisplayName edit) file 0 [] [] k hk
      rw [hloop] at hg
      have hg2 : out.file[k]? = some (stepFileOut edit csvOpt srcOpt tf
          (file.get ⟨k, hk⟩) k) := by simpa using hg
      rw [hg2]
      simp only [stepFileOut, hstepskip k hk]
      rw [List.get_eq_getElem]
      exact (List.getElem?_eq_getElem hk).symm
    · rw [List.getElem?_eq_none (by omega), List.getElem?_eq_none (by omega)]
  have herr : out.errors = [] := by
    by_contra hne
    have hiff := applyLoop_errors_ne edit csvOpt srcOpt tf filename
      (getTraceDisplayName edit) file 0 [] []
    have herrs : out.errors = (applyLoop edit csvOpt srcOpt tf filename
        (getTraceDisplayName edit) file 0 [] []).2.2 := by rw [hloop]
    rw [← herrs] at hiff
    rcases hiff.mp hne with hfalse | ⟨k, hk, e, he⟩
    · exact hfalse rfl
    · have := hstepskip k hk
      rw [show (0 : Nat) + k = k from by omega] at he
      rw [he] at this
      exact TraceOutcome.noConfusion this
  refine ⟨hch, hfl, herr, ?_⟩
  rw [applyEditResult, hrun]
  simp [Except.map, applyEditFinal, herr, hch, hfl]

/-- A CSV loader standing for a filesystem with no readable CSV files. -/
def noCsvLoader : String → Except String CsvFile := fun _ => .error "CSV file not found"

/-- The condition `trace_index < 1` used in the editor witnesses. -/
def sampleCond : Expr := .compare (.name "trace_index") [(.lt, .const (.num 1))]

/-- A conditional constant-set edit on the `cdp` field. -/
def sampleEdit : TraceHeaderEdit :=
  { field_name := "cdp", mode := "set", value := some 7, condition := some sampleCond }

/-- A two-trace file with `cdp = 5` on both traces. -/
def sampleFile : List Header := [[(21, 5)], [(21, 5)]]

/-- The run output of `sampleEdit` on `sampleFile`: trace 0 written (its
condition holds), trace 1 untouched. -/
def sampleOut : EditRunOutput :=
  { file := [[(21, 7)], [(21, 5)]],
    changes := [mkChangeRecord "f" "cdp" 0 5 7],
    errors := [] }

/-- C1 witness at a concrete two-trace file: the condition `trace_index <
1` gates trace 1 out. -/
theorem c1_condition_gating_witness :
    (∀ i (hi : i < sampleFile.length),
      evaluateCondition (buildVariables (sampleFile.get ⟨i, hi⟩) i) sampleCond = .ok false →
        sampleOut.file[i]? = some (sampleFile.get ⟨i, hi⟩)
        ∧ ∀ r ∈ sampleOut.changes, r.trace_index ≠ some i)
    ∧ (∀ i (hi : i < sampleFile.length),
        sampleOut.file[i]? ≠ some (sampleFile.get ⟨i, hi⟩) →
          evaluateCondition (buildVariables (sampleFile.get ⟨i, hi⟩) i) sampleCond
            = .ok true)
    ∧ (∀ r ∈ sampleOut.changes, ∃ i, ∃ (hi : i < sampleFile.length),
        r.trace_index = some i
        ∧ evaluateCondition (buildVariables (sampleFile.get ⟨i, hi⟩) i) sampleCond
            = .ok true) :=
  c1_condition_gating sampleEdit sampleFile noCsvLoader "f" sampleCond sampleOut rfl rfl

/-- C6 witness at the same concrete run. -/
theorem c6_error_aggregation_witness :
    sampleOut.errors.length ≤ 10
    ∧ sampleOut.file.length = sampleFile.length
    ∧ (∃ targetField csv sourceValues,
        resolveTraceField sampleEdit = .ok targetField
        ∧ (∀ k (hk : k < sampleFile.length),
            sampleOut.file[k]? = some (stepFileOut sampleEdit csv sourceValues targetField
              (sampleFile.get ⟨k, hk⟩) k))
        ∧ ((∃ msg, applyEditFinal (getTraceDisplayName sampleEdit) sampleOut = .error msg)
            ↔ ∃ k, ∃ (hk : k < sampleFile.length), ∃ e,
                traceStep sampleEdit csv sourceValues targetField
                  (sampleFile.get ⟨k, hk⟩) k = .errored e))
    ∧ applyEditResult sampleEdit sampleFile noCsvLoader "f"
        = .ok (sampleOut.file, applyEditFinal (getTraceDisplayName sampleEdit) sampleOut) :=
  c6_error_aggregation sampleEdit sampleFile noCsvLoader "f" sampleOut rfl

/-- An edit with an unrecognized mode and no condition. -/
def unknownModeEdit : TraceHeaderEdit := { field_name := "cdp", mode := "noop" }

/-- A one-trace file for the unknown-mode runs. -/
def unknownModeFile : List Header := [[(21, 5)]]

/-- The run output of the unknown-mode edit: nothing happens. -/
def unknownModeOut : EditRunOutput := { file := [[(21, 5)]], changes := [], errors := [] }

/-- C10 amended-claim witness: a resolvable unknown-mode edit without a
condition leaves the file alone, reports nothing and raises nothing. -/
theorem c10_unknown_mode_silently_skips_witness :
    unknownModeOut.changes = [] ∧ unknownModeOut.file = unknownModeFile
    ∧ unknownModeOut.errors = []
    ∧ applyEditResult unknownModeEdit unknownModeFile noCsvLoader "f"
        = .ok (unknownModeFile, .ok []) :=
  c10_unknown_mode_silently_skips unknownModeEdit unknownModeFile noCsvLoader "f"
    unknownModeOut (by decide) rfl (fun _ _ _ h => Except.noConfusion h)

/-- An unknown-mode edit whose condition divides by zero. -/
def c10BadEdit : TraceHeaderEdit :=
  { field_name := "cdp", mode := "noop",
    condition := some (.binop .div (.const (.num 1)) (.const (.num 0))) }

/-- C10 counterexample: the claim says `apply_edit` raises no error for
any edit with an unrecognized mode and a resolvable target, but the
condition is still evaluated per trace, so an unknown-mode edit with an
always-erroring condition collects a per-trace error on every trace and
raises the aggregate error after the loop. -/
theorem c10_unknown_mode_counterexample :
    c10BadEdit.mode ∉ (["set", "expression", "copy", "csv_import"] : List String)
    ∧ resolveTraceField c10BadEdit = .ok 21
    ∧ applyEditResult c10BadEdit [[(21, 5)]] noCsvLoader "f"
        = .ok ([[(21, 5)]], .error "Errors during trace header edit cdp") := by
  refine ⟨by decide, rfl, rfl⟩

/-! ## Batch engine (`core/engine.py`)

`run_batch` loops over the given paths; per file it loads, pre-validates,
skips on FAIL, otherwise applies the job (stages 2-4) and post-validates;
any exception becomes a FAILURE result.  `load_file` and `apply` touch the
filesystem and the segyio handle, so they enter the model as an
environment of result-valued functions of the path.  The cooperative
cancellation flag is reset at the start of the run and can only be set by
a concurrent `cancel()` call, outside this sequential model; the loop is
modelled uncancelled.  Wall-clock durations and progress callbacks are
elided. -/

/-- `BatchResult` (`models.py`), minus the wall-clock duration. -/
structure BatchResult where
  filename : String := ""
  status : String := "SUCCESS"
  message : String := ""
  changes : List ChangeRecord := []
  validation_before : Option ValidationResult := none
  validation_after : Option ValidationResult := none
deriving Repr

/-- `Path(path).name`: the last path component. -/
def pathName (path : String) : String := ((path.splitOn "/").getLastD path)

/-- The engine's external collaborators for one batch run: the reader
(`load_file`, which can raise) and the apply stage (`prepare output +
apply edits + post-validate`, which can also raise); each is a
result-valued function of the file path. -/
structure EngineEnv where
  load : String → Except String SegyFileInfo
  applyEdits : String → Except String (List ChangeRecord × ValidationResult)

/-- One iteration of the `run_batch` loop body: the produced `BatchResult`
paired with whether the apply stage was invoked (whether any edits were
applied to the file). -/
def runBatchFile (validator : SegyValidator) (env : EngineEnv) (path : String) :
    BatchResult × Bool :=
  match env.load path with
  | .error e => ({ filename := pathName path, status := "FAILURE", message := e }, false)
  | .ok info =>
      let preVal := validator.validate info
      if preVal.overall_status = "FAIL" then
        ({ filename := pathName path, status := "SKIPPED",
           message := "사전 검증 실패로 건너뜀",
           validation_before := some preVal }, false)
      else
        match env.applyEdits path with
        | .error e =>
            ({ filename := pathName path, status := "FAILURE", message := e }, true)
        | .ok (changes, postVal) =>
            ({ filename := pathName path, status := "SUCCESS",
               message := "changes applied",
               changes := changes,
               validation_before := some preVal,
               validation_after := some postVal }, true)

/-- `run_batch` (uncancelled): the per-file loop, which shares no state
across files. -/
def runBatch (validator : SegyValidator) (env : EngineEnv) (paths : List String) :
    List BatchResult :=
  paths.map fun p => (runBatchFile validator env p).1

/-- C5: in a batch run, a file whose pre-validation is FAIL yields a
SKIPPED `BatchResult` with an empty change list and its apply stage is
never invoked, while every other file of the batch is processed exactly as
it would be on its own. -/
theorem c5_batch_skip_semantics (validator : SegyValidator) (env : EngineEnv)
    (pre post : List String) (p : String) (info : SegyFileInfo)
    (hload : env.load p = .ok info)
    (hfail : (validator.validate info).overall_status = "FAIL") :
    (runBatchFile validator env p).1.status = "SKIPPED"
    ∧ (runBatchFile validator env p).1.changes = []
    ∧ (runBatchFile validator env p).2 = false
    ∧ runBatch validator env (pre ++ p :: post)
        = runBatch validator env pre
          ++ (runBatchFile validator env p).1 :: runBatch validator env post := by
  have hskip : runBatchFile validator env p
      = ({ filename := pathName p, status := "SKIPPED",
           message := "사전 검증 실패로 건너뜀",
           validation_before := some (validator.validate info) }, false) := by
    unfold runBatchFile
    rw [hload]
    simp [hfail]
  refine ⟨by rw [hskip], by rw [hskip], by rw [hskip], ?_⟩
  simp [runBatch]

/-- A snapshot that fails pre-validation (undersized file, zero traces,
invalid binary header fields). -/
def failingInfo : SegyFileInfo := {}

/-- An engine environment with one unreadable sibling aside: `a.sgy`
loads as `failingInfo`; the apply stage is never consulted for it. -/
def sampleEnv : EngineEnv :=
  { load := fun _ => .ok failingInfo,
    applyEdits := fun _ => .error "apply stage unused in this run" }

/-- C5 witness: with the default validator, the empty snapshot
pre-validates FAIL, so `a.sgy` is SKIPPED with no changes and no apply,
and the sibling `b.sgy` still gets its own per-file result. -/
theorem c5_batch_skip_semantics_witness :
    (runBatchFile {} sampleEnv "a.sgy").1.status = "SKIPPED"
    ∧ (runBatchFile {} sampleEnv "a.sgy").1.changes = []
    ∧ (runBatchFile {} sampleEnv "a.sgy").2 = false
    ∧ runBatch {} sampleEnv ([] ++ "a.sgy" :: ["b.sgy"])
        = runBatch {} sampleEnv []
          ++ (runBatchFile {} sampleEnv "a.sgy").1 :: runBatch {} sampleEnv ["b.sgy"] :=
  c5_batch_skip_semantics {} sampleEnv [] ["b.sgy"] "a.sgy" failingInfo rfl rfl

end SegyToolbox
